import Mathlib

/-!
TimeComplexityVisualizer.

A shallow embedding of `src/components/TimeComplexityVisualizer.jsx`: the
parameter store, the reference growth functions `g`, the two derived series
`f_n` and `c_g_n`, the chart dataset labels, and `parseFn`.

Number model.  An ECMAScript Number is embedded as `JSNumber`: a finite value
carried as an exact rational, or one of the three special values `NaN`,
`+Infinity`, `-Infinity`.  Arithmetic on finite values is exact (IEEE-754
mantissa rounding and range overflow are not part of the arithmetic); the
double-precision range is made explicit by `maxFiniteDouble` where a statement
is about it.  `Math.log2` is a host library function whose values on positive
arguments are implementation-approximated, so its finite part is a parameter
`lg` of every definition that reaches it.  The closure `g` is applied to the
elements of `labels` only, which `Array.from` makes as `i + 1` for an index `i`,
so its argument is a natural number.

Binary64.  `g64` is `g` with every arithmetic step rounded to IEEE-754 binary64
by `roundDouble` (round to nearest, ties to even, overflow to an infinity); the
statement about the table of `g` is made on it.

Host model.  `parseFn` runs text through the host's `Function` constructor.
What a host does is an `Engine`; statements about every host range over an
arbitrary `Engine`.  `fragmentEngine` is the host on a fragment of ECMAScript
and is used at concrete texts of that fragment.  Evaluating a text may read and
write the host's global object, so the engine and everything built on it pass
a `HostState` along.  The component reads the globals `Array`, `Function` and
`Math` when it runs; `renderHost` is the render that reads them from the state
the text has left, and it can end in a throw.
-/

namespace TimeComplexityVisualizer

/-! ## Numbers and values -/

/-- ECMAScript Number: a finite value (exact rational), NaN, or a signed infinity. -/
inductive JSNumber where
  | finite (q : ℚ)
  | nan
  | posInf
  | negInf
  deriving DecidableEq

/-- ECMAScript language values of the primitive kinds the component handles. -/
inductive JSValue where
  | undefined
  | null
  | boolean (b : Bool)
  | number (x : JSNumber)
  deriving DecidableEq

namespace JSNumber

/-- The Number with the value of a natural number. -/
def ofNat (n : Nat) : JSNumber := finite (n : ℚ)

/-- An infinity of the given sign (negative when the flag is true). -/
def inf (negative : Bool) : JSNumber := if negative then negInf else posInf

/-- Product of a finite value with an infinity: NaN for zero, else the signed infinity. -/
def mulInf (a : ℚ) (negative : Bool) : JSNumber :=
  if a = 0 then nan else inf (decide (a < 0) != negative)

/-- Number multiplication, the operator `*` on Numbers. -/
def mul : JSNumber → JSNumber → JSNumber
  | finite a, finite b => finite (a * b)
  | nan, _ => nan
  | _, nan => nan
  | finite a, posInf => mulInf a false
  | finite a, negInf => mulInf a true
  | posInf, finite b => mulInf b false
  | negInf, finite b => mulInf b true
  | posInf, posInf => posInf
  | posInf, negInf => negInf
  | negInf, posInf => negInf
  | negInf, negInf => posInf

/-- Number addition, the operator `+` on Numbers. -/
def add : JSNumber → JSNumber → JSNumber
  | finite a, finite b => finite (a + b)
  | nan, _ => nan
  | _, nan => nan
  | finite _, posInf => posInf
  | finite _, negInf => negInf
  | posInf, finite _ => posInf
  | negInf, finite _ => negInf
  | posInf, posInf => posInf
  | posInf, negInf => nan
  | negInf, posInf => nan
  | negInf, negInf => negInf

/-- A Number that is finite and not negative. -/
def IsNonnegFinite : JSNumber → Prop
  | finite q => 0 ≤ q
  | _ => False

end JSNumber

/-- The largest finite double, `2^1024 - 2^971`. -/
def maxFiniteDouble : ℚ := 2 ^ 1024 - 2 ^ 971

/-- `Math.log2` at a label: `-Infinity` at zero, else the host value `lg n`. -/
def Math_log2 (lg : Nat → ℚ) (n : Nat) : JSNumber :=
  if n = 0 then JSNumber.negInf else JSNumber.finite (lg n)

/-- `Math.pow(b, n)` for a natural exponent. -/
def Math_pow (b : ℚ) (n : Nat) : JSNumber := JSNumber.finite (b ^ n)

/-! ## The component's derived data -/

/-- `Array.from({ length: maxN }, (_, i) => i + 1)`. -/
def labels (maxN : Nat) : List Nat := (List.range maxN).map (fun i => i + 1)

/-- The reference growth function `g`, a `switch` on the selector `gnType`. -/
def g (lg : Nat → ℚ) (gnType : String) (n : Nat) : JSNumber :=
  if gnType = "linear" then JSNumber.ofNat n
  else if gnType = "quadratic" then JSNumber.mul (JSNumber.ofNat n) (JSNumber.ofNat n)
  else if gnType = "logn" then Math_log2 lg n
  else if gnType = "nlogn" then JSNumber.mul (JSNumber.ofNat n) (Math_log2 lg n)
  else if gnType = "exponential" then Math_pow 2 n
  else JSNumber.mul (JSNumber.ofNat n) (Math_log2 lg n)

/-- One point of the scaled series: `n >= n0 ? c * g(n) : null`. -/
def c_g_point (lg : Nat → ℚ) (c : ℚ) (n0 : Int) (gnType : String) (n : Nat) : JSValue :=
  if n0 ≤ (n : Int) then JSValue.number (JSNumber.mul (JSNumber.finite c) (g lg gnType n))
  else JSValue.null

/-- The scaled series `c_g_n = labels.map((n) => (n >= n0 ? c * g(n) : null))`. -/
def c_g_n (lg : Nat → ℚ) (c : ℚ) (n0 : Int) (gnType : String) (maxN : Nat) : List JSValue :=
  (labels maxN).map (c_g_point lg c n0 gnType)

/-- Label of the first dataset. -/
def fLabel : String := "f(n)"

/-- Label of the second dataset: "c·g(n)" with the n0 annotation when `n0 > 1`. -/
def cgLabel (n0 : Int) : String :=
  "c·g(n)" ++ (if 1 < n0 then " (from n ≥ " ++ toString n0 ++ ")" else "")

/-! ## The host's `Function` constructor on a fragment of ECMAScript

`parseFn` hands the text `return <expr>` to the host's `Function` constructor
and calls the result.  The host is modelled on a fragment of the language:
decimal integer literals, `null`, `true`, `false`, identifiers, `this.name`,
parentheses, `!`, `*`, `+`, `||` and `=`, with blanks between tokens.  A
function made by `Function` is non-strict code called with no receiver: `this`
is the global object, and assigning to an unbound name creates a global. -/

/-- Errors the modelled fragment can throw. -/
inductive JSError where
  | syntaxError
  | referenceError
  | typeError
  deriving DecidableEq

/-- Host state a script can reach: the bindings a text has made on the global
object (other than the fixed `undefined`, `NaN`, `Infinity`).  The fragment's
evaluator reads a name that is not listed as unbound; for a built-in global such
as `Math`, not being listed means the standard object is still in place
(`HostState.intact`). -/
structure HostState where
  globals : List (String × JSValue)
  deriving DecidableEq

/-- Tokens of the fragment. -/
inductive Token where
  | num (k : Nat)
  | ident (x : String)
  | kwReturn
  | kwThis
  | kwNull
  | kwTrue
  | kwFalse
  | lparen
  | rparen
  | plus
  | star
  | assign
  | bang
  | dot
  | oror
  deriving DecidableEq

/-- Expressions of the fragment. -/
inductive Expr where
  | num (k : Nat)
  | lit (v : JSValue)
  | ident (x : String)
  | thisProp (x : String)
  | not (e : Expr)
  | mul (a b : Expr)
  | add (a b : Expr)
  | or (a b : Expr)
  | assignIdent (x : String) (e : Expr)
  | assignThisProp (x : String) (e : Expr)
  deriving DecidableEq

/-- First character of an identifier. -/
def isIdentStart (c : Char) : Bool := c.isAlpha || c = '_' || c = '$'

/-- Later character of an identifier. -/
def isIdentPart (c : Char) : Bool := c.isAlphanum || c = '_' || c = '$'

/-- Words that are not plain identifiers in a function body and have no token here. -/
def unsupportedWords : List String :=
  ["arguments", "async", "await", "break", "case", "catch", "class", "const", "continue",
   "debugger", "default", "delete", "do", "else", "enum", "eval", "export", "extends",
   "finally", "for", "function", "if", "implements", "import", "in", "instanceof",
   "interface", "let", "new", "of", "package", "private", "protected", "public", "static",
   "super", "switch", "throw", "try", "typeof", "var", "void", "while", "with", "yield"]

/-- Token of a word, if the fragment has one. -/
def wordToken (w : String) : Option Token :=
  if w = "return" then some Token.kwReturn
  else if w = "this" then some Token.kwThis
  else if w = "null" then some Token.kwNull
  else if w = "true" then some Token.kwTrue
  else if w = "false" then some Token.kwFalse
  else if w ∈ unsupportedWords then none
  else some (Token.ident w)

/-- Value of a string of decimal digits. -/
def digitsValue (ds : List Char) : Nat :=
  ds.foldl (fun acc c => 10 * acc + (c.toNat - 48)) 0

/-- A character that may not follow a token made of one operator character,
because the two would form a longer operator. -/
def extendsOperator (c : Char) : Bool :=
  c = '=' || c = '+' || c = '*' || c = '>' || c = '|' || c = '-' || c = '/' || c = '?'

/-- The rest of the text does not start with a character that extends an operator. -/
def operatorEnds : List Char → Bool
  | [] => true
  | c :: _ => !extendsOperator c

/-- Tokenizer; `none` for text with anything outside the fragment. -/
def lex : Nat → List Char → Option (List Token)
  | 0, _ => none
  | _ + 1, [] => some []
  | fuel + 1, c :: rest =>
    if c = ' ' then lex fuel rest
    else if c.isDigit then
      let ds := (c :: rest).takeWhile Char.isDigit
      let rest1 := (c :: rest).dropWhile Char.isDigit
      let followOk := match rest1 with
        | [] => true
        | d :: _ => !(isIdentPart d || d = '.')
      if (c = '0' && ds.length ≠ 1) || !followOk then none
      else (lex fuel rest1).map (fun ts => Token.num (digitsValue ds) :: ts)
    else if isIdentStart c then
      let w := (c :: rest).takeWhile isIdentPart
      let rest1 := (c :: rest).dropWhile isIdentPart
      match wordToken (String.mk w) with
      | none => none
      | some t => (lex fuel rest1).map (fun ts => t :: ts)
    else if c = '(' then (lex fuel rest).map (fun ts => Token.lparen :: ts)
    else if c = ')' then (lex fuel rest).map (fun ts => Token.rparen :: ts)
    else if c = '.' then
      match rest with
      | d :: _ => if d.isDigit || d = '.' then none
                  else (lex fuel rest).map (fun ts => Token.dot :: ts)
      | [] => some [Token.dot]
    else if c = '+' then
      if operatorEnds rest then (lex fuel rest).map (fun ts => Token.plus :: ts) else none
    else if c = '*' then
      if operatorEnds rest then (lex fuel rest).map (fun ts => Token.star :: ts) else none
    else if c = '=' then
      if operatorEnds rest then (lex fuel rest).map (fun ts => Token.assign :: ts) else none
    else if c = '!' then
      if operatorEnds rest then (lex fuel rest).map (fun ts => Token.bang :: ts) else none
    else if c = '|' then
      match rest with
      | '|' :: rest1 =>
        if operatorEnds rest1 then (lex fuel rest1).map (fun ts => Token.oror :: ts) else none
      | _ => none
    else none

mutual

/-- AssignmentExpression: a reference, `=`, and an AssignmentExpression; or a `||` chain. -/
def parseAssign : Nat → List Token → Option (Expr × List Token)
  | 0, _ => none
  | fuel + 1, ts =>
    match parseOr fuel ts with
    | none => none
    | some (lhs, Token.assign :: rest) =>
      match parseAssign fuel rest with
      | none => none
      | some (rhs, rest1) =>
        match lhs with
        | Expr.ident x => some (Expr.assignIdent x rhs, rest1)
        | Expr.thisProp x => some (Expr.assignThisProp x rhs, rest1)
        | _ => none
    | some r => some r

/-- LogicalORExpression. -/
def parseOr : Nat → List Token → Option (Expr × List Token)
  | 0, _ => none
  | fuel + 1, ts =>
    match parseAdd fuel ts with
    | none => none
    | some (lhs, rest) => parseOrRest fuel lhs rest

/-- Continuation of a `||` chain (left associative). -/
def parseOrRest : Nat → Expr → List Token → Option (Expr × List Token)
  | 0, _, _ => none
  | fuel + 1, lhs, Token.oror :: rest =>
    match parseAdd fuel rest with
    | none => none
    | some (rhs, rest1) => parseOrRest fuel (Expr.or lhs rhs) rest1
  | _ + 1, lhs, ts => some (lhs, ts)

/-- AdditiveExpression. -/
def parseAdd : Nat → List Token → Option (Expr × List Token)
  | 0, _ => none
  | fuel + 1, ts =>
    match parseMul fuel ts with
    | none => none
    | some (lhs, rest) => parseAddRest fuel lhs rest

/-- Continuation of a `+` chain (left associative). -/
def parseAddRest : Nat → Expr → List Token → Option (Expr × List Token)
  | 0, _, _ => none
  | fuel + 1, lhs, Token.plus :: rest =>
    match parseMul fuel rest with
    | none => none
    | some (rhs, rest1) => parseAddRest fuel (Expr.add lhs rhs) rest1
  | _ + 1, lhs, ts => some (lhs, ts)

/-- MultiplicativeExpression. -/
def parseMul : Nat → List Token → Option (Expr × List Token)
  | 0, _ => none
  | fuel + 1, ts =>
    match parseUnary fuel ts with
    | none => none
    | some (lhs, rest) => parseMulRest fuel lhs rest

/-- Continuation of a `*` chain (left associative). -/
def parseMulRest : Nat → Expr → List Token → Option (Expr × List Token)
  | 0, _, _ => none
  | fuel + 1, lhs, Token.star :: rest =>
    match parseUnary fuel rest with
    | none => none
    | some (rhs, rest1) => parseMulRest fuel (Expr.mul lhs rhs) rest1
  | _ + 1, lhs, ts => some (lhs, ts)

/-- UnaryExpression (`!`) and primary expressions. -/
def parseUnary : Nat → List Token → Option (Expr × List Token)
  | 0, _ => none
  | fuel + 1, Token.bang :: rest =>
    match parseUnary fuel rest with
    | none => none
    | some (e, rest1) => some (Expr.not e, rest1)
  | _ + 1, Token.num k :: rest => some (Expr.num k, rest)
  | _ + 1, Token.kwNull :: rest => some (Expr.lit JSValue.null, rest)
  | _ + 1, Token.kwTrue :: rest => some (Expr.lit (JSValue.boolean true), rest)
  | _ + 1, Token.kwFalse :: rest => some (Expr.lit (JSValue.boolean false), rest)
  | _ + 1, Token.ident x :: rest => some (Expr.ident x, rest)
  | _ + 1, Token.kwThis :: Token.dot :: Token.ident x :: rest => some (Expr.thisProp x, rest)
  | fuel + 1, Token.lparen :: rest =>
    match parseAssign fuel rest with
    | some (e, Token.rparen :: rest1) => some (e, rest1)
    | _ => none
  | _ + 1, _ => none

end

/-- Parse a function body of the shape `return <expr>`: `none` when the text is not
in the fragment, `some none` for a bare `return`, `some (some e)` otherwise. -/
def parseBody (body : String) : Option (Option Expr) :=
  match lex (body.length + 1) body.toList with
  | some [Token.kwReturn] => some none
  | some (Token.kwReturn :: ts) =>
    match parseAssign (8 * ts.length + 8) ts with
    | some (e, []) => some (some e)
    | _ => none
  | _ => none

/-- ToNumber on the primitive kinds. -/
def toNumber : JSValue → JSNumber
  | JSValue.undefined => JSNumber.nan
  | JSValue.null => JSNumber.finite 0
  | JSValue.boolean b => JSNumber.finite (if b then 1 else 0)
  | JSValue.number x => x

/-- ToBoolean on the primitive kinds. -/
def toBoolean : JSValue → Bool
  | JSValue.undefined => false
  | JSValue.null => false
  | JSValue.boolean b => b
  | JSValue.number (JSNumber.finite q) => decide (q ≠ 0)
  | JSValue.number JSNumber.nan => false
  | JSValue.number _ => true

/-- Names of the global object's fixed, non-writable value properties. -/
def isFixedGlobal (x : String) : Bool := x = "undefined" || x = "NaN" || x = "Infinity"

/-- Value of the global object's property `x`, if it has one. -/
def globalGet (σ : HostState) (x : String) : Option JSValue :=
  if x = "undefined" then some JSValue.undefined
  else if x = "NaN" then some (JSValue.number JSNumber.nan)
  else if x = "Infinity" then some (JSValue.number JSNumber.posInf)
  else σ.globals.lookup x

/-- Replace the binding of `x` in a binding list, or add it at the end. -/
def setBinding (x : String) (v : JSValue) : List (String × JSValue) → List (String × JSValue)
  | [] => [(x, v)]
  | (y, w) :: rest => if y = x then (x, v) :: rest else (y, w) :: setBinding x v rest

/-- Non-strict write to the global object's property `x` (ignored for the fixed ones). -/
def globalSet (σ : HostState) (x : String) (v : JSValue) : HostState :=
  if isFixedGlobal x then σ else { globals := setBinding x v σ.globals }

/-- Activation of the made function: the parameter `n` and the host state. -/
structure Activation where
  n : JSValue
  host : HostState
  deriving DecidableEq

/-- Evaluate an expression of the fragment: a value or a thrown error, and the
activation after it (effects before a throw remain). -/
def eval : Expr → Activation → Except JSError JSValue × Activation
  | Expr.num k, a => (Except.ok (JSValue.number (JSNumber.ofNat k)), a)
  | Expr.lit v, a => (Except.ok v, a)
  | Expr.ident x, a =>
    if x = "n" then (Except.ok a.n, a)
    else match globalGet a.host x with
      | some v => (Except.ok v, a)
      | none => (Except.error JSError.referenceError, a)
  | Expr.thisProp x, a => (Except.ok ((globalGet a.host x).getD JSValue.undefined), a)
  | Expr.not e, a =>
    match eval e a with
    | (Except.ok v, a1) => (Except.ok (JSValue.boolean (!toBoolean v)), a1)
    | (Except.error err, a1) => (Except.error err, a1)
  | Expr.mul l r, a =>
    match eval l a with
    | (Except.error err, a1) => (Except.error err, a1)
    | (Except.ok v, a1) =>
      match eval r a1 with
      | (Except.error err, a2) => (Except.error err, a2)
      | (Except.ok w, a2) =>
        (Except.ok (JSValue.number (JSNumber.mul (toNumber v) (toNumber w))), a2)
  | Expr.add l r, a =>
    match eval l a with
    | (Except.error err, a1) => (Except.error err, a1)
    | (Except.ok v, a1) =>
      match eval r a1 with
      | (Except.error err, a2) => (Except.error err, a2)
      | (Except.ok w, a2) =>
        (Except.ok (JSValue.number (JSNumber.add (toNumber v) (toNumber w))), a2)
  | Expr.or l r, a =>
    match eval l a with
    | (Except.error err, a1) => (Except.error err, a1)
    | (Except.ok v, a1) => if toBoolean v then (Except.ok v, a1) else eval r a1
  | Expr.assignIdent x e, a =>
    match eval e a with
    | (Except.error err, a1) => (Except.error err, a1)
    | (Except.ok v, a1) =>
      if x = "n" then (Except.ok v, { a1 with n := v })
      else (Except.ok v, { a1 with host := globalSet a1.host x v })
  | Expr.assignThisProp x e, a =>
    match eval e a with
    | (Except.error err, a1) => (Except.error err, a1)
    | (Except.ok v, a1) => (Except.ok v, { a1 with host := globalSet a1.host x v })

/-- What a host does for `Function("n", body)(arg)`: the completion and the new state. -/
abbrev Engine := String → JSValue → HostState → Except JSError JSValue × HostState

/-- The host on the fragment: text the fragment's parser does not accept fails to
build (a SyntaxError), a bare `return` gives `undefined`. -/
def fragmentEngine : Engine := fun body arg σ =>
  match parseBody body with
  | none => (Except.error JSError.syntaxError, σ)
  | some none => (Except.ok JSValue.undefined, σ)
  | some (some e) =>
    match eval e { n := arg, host := σ } with
    | (r, a) => (r, a.host)

/-- The source's `parseFn`: `try { return Function("n", "return " + expr)(n) }
catch (e) { return NaN }`, over a host `call`. -/
def parseFn (call : Engine) (expr : String) (n : JSValue) (σ : HostState) :
    JSValue × HostState :=
  match call ("return " ++ expr) n σ with
  | (Except.ok v, σ1) => (v, σ1)
  | (Except.error _, σ1) => (JSValue.number JSNumber.nan, σ1)

/-- The Number value of a label, as passed to `parseFn`. -/
def labelValue (n : Nat) : JSValue := JSValue.number (JSNumber.ofNat n)

/-- The series `labels.map((n) => parseFn(fnExpr, n))`, evaluated left to right. -/
def mapParseFn (call : Engine) (fnExpr : String) : List Nat → HostState → List JSValue × HostState
  | [], σ => ([], σ)
  | n :: ns, σ =>
    match parseFn call fnExpr (labelValue n) σ with
    | (v, σ1) =>
      match mapParseFn call fnExpr ns σ1 with
      | (vs, σ2) => (v :: vs, σ2)

/-- The f-series `f_n` of a render, with the host state after it. -/
def f_n (call : Engine) (fnExpr : String) (maxN : Nat) (σ : HostState) :
    List JSValue × HostState :=
  mapParseFn call fnExpr (labels maxN) σ

/-- A host state with no user-made global. -/
def HostState.empty : HostState := { globals := [] }

/-! ## The parameter store and its change handlers -/

/-- The component's state: the five `useState` cells. -/
structure Params where
  c : ℚ
  n0 : Int
  maxN : Int
  fnExpr : String
  gnType : String
  deriving DecidableEq

/-- The `useState` defaults. -/
def Params.initial : Params :=
  { c := 1, n0 := 1, maxN := 100, fnExpr := "n", gnType := "nlogn" }

/-- An `<input type="range">` with its `min`, `max` and `step` attributes. -/
structure RangeInput where
  min : ℚ
  max : ℚ
  step : ℚ

/-- Number of steps from `min` that stay within `max`. -/
def RangeInput.steps (r : RangeInput) : Nat := ⌊(r.max - r.min) / r.step⌋.toNat

/-- The value a range input reports at position `k`: a step multiple from `min`,
positions past the last step being held at the last step. -/
def RangeInput.value (r : RangeInput) (k : Nat) : ℚ := r.min + (Nat.min k r.steps : Nat) * r.step

/-- The slider of `c`: `min="0.5" max="200" step="0.5"`. -/
def cInput : RangeInput := { min := 1 / 2, max := 200, step := 1 / 2 }

/-- The slider of `n0`: `min="1" max="50" step="1"`. -/
def n0Input : RangeInput := { min := 1, max := 50, step := 1 }

/-- The slider of `maxN`: `min="10" max="200" step="10"`. -/
def maxNInput : RangeInput := { min := 10, max := 200, step := 10 }

/-- `parseInt` of the decimal text of a value: its integer part. -/
def parseInt (q : ℚ) : Int := if 0 ≤ q then ⌊q⌋ else ⌈q⌉

/-- `parseFloat` of the decimal text of a value. -/
def parseFloat (q : ℚ) : ℚ := q

/-- A change event of one of the five controls, with what `e.target.value` holds:
a slider position, or the text of the text field or of the chosen option. -/
inductive Event where
  | fnExprChange (text : String)
  | gnTypeChange (value : String)
  | cChange (position : Nat)
  | n0Change (position : Nat)
  | maxNChange (position : Nat)

/-- The `onChange` handlers: each calls one setter. -/
def handle (p : Params) : Event → Params
  | Event.fnExprChange text => { p with fnExpr := text }
  | Event.gnTypeChange value => { p with gnType := value }
  | Event.cChange k => { p with c := parseFloat (cInput.value k) }
  | Event.n0Change k => { p with n0 := parseInt (n0Input.value k) }
  | Event.maxNChange k => { p with maxN := parseInt (maxNInput.value k) }

/-- The range invariant of the parameter set. -/
def Params.InRange (p : Params) : Prop :=
  (1 / 2 ≤ p.c ∧ p.c ≤ 200) ∧ (1 ≤ p.n0 ∧ p.n0 ≤ 50) ∧
    (10 ≤ p.maxN ∧ p.maxN ≤ 200 ∧ (10 : Int) ∣ p.maxN)

/-! ## The chart data of a render -/

/-- One entry of `data.datasets` (label and points). -/
structure Dataset where
  label : String
  data : List JSValue
  deriving DecidableEq

/-- The `data` object handed to the chart. -/
structure ChartData where
  labels : List Nat
  datasets : List Dataset
  deriving DecidableEq

/-- One render of the component body in a realm whose built-ins stay in place:
both series and the chart data, with the host state left by evaluating the
f-series (`renderHost` is the render in a realm a text may have changed). -/
def render (lg : Nat → ℚ) (call : Engine) (p : Params) (σ : HostState) :
    ChartData × HostState :=
  match f_n call p.fnExpr p.maxN.toNat σ with
  | (fs, σ1) =>
    ({ labels := labels p.maxN.toNat,
       datasets := [{ label := fLabel, data := fs },
                    { label := cgLabel p.n0,
                      data := c_g_n lg p.c p.n0 p.gnType p.maxN.toNat }] }, σ1)

/-- Expressions built from integer literals, the parameter `n`, `+` and `*`. -/
def Expr.isArith : Expr → Bool
  | Expr.num _ => true
  | Expr.ident x => x = "n"
  | Expr.mul a b => a.isArith && b.isArith
  | Expr.add a b => a.isArith && b.isArith
  | _ => false

/-- A JavaScript value that is a Number (NaN and the infinities included). -/
def JSValue.IsNumber : JSValue → Prop
  | JSValue.number _ => True
  | _ => False

instance (v : JSValue) : Decidable v.IsNumber := by
  cases v <;> simp only [JSValue.IsNumber] <;> infer_instance

/-- Value of an arithmetic expression at the parameter value `x`. -/
def arithValue : Expr → JSNumber → JSNumber
  | Expr.num k, _ => JSNumber.ofNat k
  | Expr.ident _, x => x
  | Expr.mul a b, x => JSNumber.mul (arithValue a x) (arithValue b x)
  | Expr.add a b, x => JSNumber.add (arithValue a x) (arithValue b x)
  | _, _ => JSNumber.nan

/-! ## A render in the host's realm

The component body reads the globals `Array` (line 32), `Function` (line 36)
and `Math` (lines 46-49) when it runs, and line 54 runs after line 53 has
evaluated the text of `fnExpr`.  A text can replace these bindings
(`Math = 0`), after which the standard object is gone: a primitive value has no
`from`, `log2` or `pow` method, and calling it or such a method throws a
TypeError.  Only the call of `Function` is inside the `try`. -/

/-- The standard binding of the built-in global `name` is in place: no write has
replaced it. -/
def HostState.intact (σ : HostState) (name : String) : Bool := (σ.globals.lookup name).isNone

/-- `Math.log2(n)` in a host state: a TypeError once `Math` has been replaced. -/
def Math_log2Host (lg : Nat → ℚ) (σ : HostState) (n : Nat) : Except JSError JSNumber :=
  if σ.intact "Math" then Except.ok (Math_log2 lg n) else Except.error JSError.typeError

/-- `Math.pow(b, n)` in a host state: a TypeError once `Math` has been replaced. -/
def Math_powHost (σ : HostState) (b : ℚ) (n : Nat) : Except JSError JSNumber :=
  if σ.intact "Math" then Except.ok (Math_pow b n) else Except.error JSError.typeError

/-- The function `g` in a host state; the branches that call into `Math` can throw. -/
def gHost (lg : Nat → ℚ) (σ : HostState) (gnType : String) (n : Nat) : Except JSError JSNumber :=
  if gnType = "linear" then Except.ok (JSNumber.ofNat n)
  else if gnType = "quadratic" then Except.ok (JSNumber.mul (JSNumber.ofNat n) (JSNumber.ofNat n))
  else if gnType = "logn" then Math_log2Host lg σ n
  else if gnType = "nlogn" then (Math_log2Host lg σ n).map (JSNumber.mul (JSNumber.ofNat n))
  else if gnType = "exponential" then Math_powHost σ 2 n
  else (Math_log2Host lg σ n).map (JSNumber.mul (JSNumber.ofNat n))

/-- One point of the scaled series in a host state: `n >= n0 ? c * g(n) : null`. -/
def c_g_pointHost (lg : Nat → ℚ) (σ : HostState) (c : ℚ) (n0 : Int) (gnType : String)
    (n : Nat) : Except JSError JSValue :=
  if n0 ≤ (n : Int) then
    (gHost lg σ gnType n).map (fun x => JSValue.number (JSNumber.mul (JSNumber.finite c) x))
  else Except.ok JSValue.null

/-- `xs.map(f)` for a callback that may throw: the first throw ends the map. -/
def mapThrowing (f : Nat → Except JSError JSValue) : List Nat → Except JSError (List JSValue)
  | [] => Except.ok []
  | n :: ns =>
    match f n with
    | Except.error err => Except.error err
    | Except.ok v =>
      match mapThrowing f ns with
      | Except.error err => Except.error err
      | Except.ok vs => Except.ok (v :: vs)

/-- `parseFn` in a host state: once `Function` has been replaced, the call on line 36
throws a TypeError inside the `try`, and the result is NaN. -/
def parseFnHost (call : Engine) (expr : String) (n : JSValue) (σ : HostState) :
    JSValue × HostState :=
  if σ.intact "Function" then parseFn call expr n σ else (JSValue.number JSNumber.nan, σ)

/-- The f-series in a host state: `labels.map((n) => parseFn(fnExpr, n))`. -/
def mapParseFnHost (call : Engine) (fnExpr : String) :
    List Nat → HostState → List JSValue × HostState
  | [], σ => ([], σ)
  | n :: ns, σ =>
    match parseFnHost call fnExpr (labelValue n) σ with
    | (v, σ1) =>
      match mapParseFnHost call fnExpr ns σ1 with
      | (vs, σ2) => (v :: vs, σ2)

/-- One render of the component body in a host state: line 32 throws once `Array`
has been replaced, line 53 evaluates the f-series, and line 54 derives the scaled
series in the state line 53 has left.  A throw leaves no chart data. -/
def renderHost (lg : Nat → ℚ) (call : Engine) (p : Params) (σ : HostState) :
    Except JSError ChartData × HostState :=
  if σ.intact "Array" then
    match mapParseFnHost call p.fnExpr (labels p.maxN.toNat) σ with
    | (fs, σ1) =>
      match mapThrowing (c_g_pointHost lg σ1 p.c p.n0 p.gnType) (labels p.maxN.toNat) with
      | Except.error err => (Except.error err, σ1)
      | Except.ok cg =>
        (Except.ok { labels := labels p.maxN.toNat,
                     datasets := [{ label := fLabel, data := fs },
                                  { label := cgLabel p.n0, data := cg }] }, σ1)
  else (Except.error JSError.typeError, σ)

/-! ## Binary64 arithmetic

The source computes on IEEE-754 binary64 values: `*` returns the binary64 value
nearest to the exact product, and `Math.pow(2, n)` is `Infinity` once `2^n`
leaves the binary64 range.  `roundDouble` is that rounding on rationals, and
`g64` is the `switch` of `g` with every arithmetic step rounded. -/

/-- The integer nearest to a rational, a tie going to the even neighbour. -/
def roundHalfEven (x : ℚ) : Int :=
  if x - ⌊x⌋ < 1 / 2 then ⌊x⌋
  else if 1 / 2 < x - ⌊x⌋ then ⌊x⌋ + 1
  else if ⌊x⌋ % 2 = 0 then ⌊x⌋ else ⌊x⌋ + 1

/-- Exponent of the spacing of binary64 values at a magnitude `s`: 52 below the
binary exponent of `s`, which is held at `-1022` for subnormal magnitudes. -/
def ulpExponent (s : ℚ) : Int := max (Int.log 2 s) (-1022) - 52

/-- A magnitude rounded to a multiple of the binary64 spacing at it. -/
def roundMagnitude (s : ℚ) : ℚ := (roundHalfEven (s / 2 ^ ulpExponent s) : ℚ) * 2 ^ ulpExponent s

/-- The binary64 value nearest to a rational: round to nearest, ties to even; a
magnitude that rounds to `2^1024` or more gives the infinity of its sign. -/
def roundDouble (q : ℚ) : JSNumber :=
  if 2 ^ 1024 ≤ roundMagnitude |q| then JSNumber.inf (decide (q < 0))
  else if q < 0 then JSNumber.finite (-roundMagnitude |q|)
  else JSNumber.finite (roundMagnitude |q|)

/-- The operator `*` on binary64 Numbers: the exact product rounded to binary64. -/
def JSNumber.mul64 (x y : JSNumber) : JSNumber :=
  match JSNumber.mul x y with
  | JSNumber.finite q => roundDouble q
  | z => z

/-- `Math.pow(b, n)` for a natural exponent, as a binary64 Number. -/
def Math_pow64 (b : ℚ) (n : Nat) : JSNumber := roundDouble (b ^ n)

/-- The function `g` on binary64 Numbers: the `switch` of lines 42-51 with each
arithmetic step rounded to binary64. -/
def g64 (lg : Nat → ℚ) (gnType : String) (n : Nat) : JSNumber :=
  if gnType = "linear" then JSNumber.ofNat n
  else if gnType = "quadratic" then JSNumber.mul64 (JSNumber.ofNat n) (JSNumber.ofNat n)
  else if gnType = "logn" then Math_log2 lg n
  else if gnType = "nlogn" then JSNumber.mul64 (JSNumber.ofNat n) (Math_log2 lg n)
  else if gnType = "exponential" then Math_pow64 2 n
  else JSNumber.mul64 (JSNumber.ofNat n) (Math_log2 lg n)

/-- The binary64 value of `Math.log2(5)`, `0x1.2934f0979a371p+1`. -/
def log2FiveDouble : ℚ := 5228517251457905 / 2 ^ 51

/-- A text for `fnExpr` that replaces the global `Math` by the number 0. -/
def mathZeroExpr : String := "Math = 0"

/-- The default parameters with `fnExpr` set to `mathZeroExpr`. -/
def mathZeroParams : Params := { Params.initial with fnExpr := mathZeroExpr }

/-- The parameter set `c = 1`, `n0 = 1`, `maxN = 5`, `fnExpr = "n"`, `gnType = "linear"`. -/
def sampleParams : Params := { c := 1, n0 := 1, maxN := 5, fnExpr := "n", gnType := "linear" }

/-- A text for `fnExpr` that counts its own evaluations in the global `k`. -/
def counterExpr : String := "this.k = (this.k || 0) + 1"

/-- The default parameters with `fnExpr` set to `counterExpr` and `maxN` to 10. -/
def counterParams : Params := { Params.initial with fnExpr := counterExpr, maxN := 10 }

/-- A host logarithm table that is exact on powers of two (floor of log₂). -/
def floorLog2 (n : Nat) : ℚ := (Nat.log2 n : ℚ)

/-! ## Lemmas on the labels and the scaled series -/

theorem labels_eq_range' (maxN : Nat) : labels maxN = List.range' 1 maxN := by
  apply List.ext_getElem?
  intro i
  by_cases h : i < maxN
  · simp [labels, List.getElem?_map, List.getElem?_range h, List.getElem?_range', h]; omega
  · have hi : maxN ≤ i := Nat.le_of_not_lt h
    rw [List.getElem?_eq_none (by simp [labels]; exact hi),
      List.getElem?_eq_none (by simp; exact hi)]

theorem labels_length (maxN : Nat) : (labels maxN).length = maxN := by
  simp [labels]

theorem labels_getElem? (maxN i : Nat) (h : i < maxN) : (labels maxN)[i]? = some (i + 1) := by
  simp [labels, List.getElem?_map, List.getElem?_range h]

theorem c_g_n_getElem? (lg : Nat → ℚ) (c : ℚ) (n0 : Int) (gnType : String) (maxN i : Nat)
    (h : i < maxN) : (c_g_n lg c n0 gnType maxN)[i]? = some (c_g_point lg c n0 gnType (i + 1)) := by
  simp [c_g_n, List.getElem?_map, labels_getElem? maxN i h]

/-! ## Scaled series: threshold at `n0` -/

/-- C1: for `1 ≤ n ≤ maxN` the point of the scaled series at `n` is `null` when
`n < n0` and `c * g(n)` when `n ≥ n0`; `null` is distinct from the Numbers `0` and
`NaN`; and when `n0 > maxN` every point of the series is `null`. -/
theorem c_g_n_threshold (lg : Nat → ℚ) (c : ℚ) (n0 : Int) (gnType : String) (maxN n : Nat)
    (h1 : 1 ≤ n) (h2 : n ≤ maxN) :
    ((n : Int) < n0 → (c_g_n lg c n0 gnType maxN)[n - 1]? = some JSValue.null) ∧
    (n0 ≤ (n : Int) → (c_g_n lg c n0 gnType maxN)[n - 1]? =
        some (JSValue.number (JSNumber.mul (JSNumber.finite c) (g lg gnType n)))) ∧
    JSValue.null ≠ JSValue.number (JSNumber.finite 0) ∧
    JSValue.null ≠ JSValue.number JSNumber.nan ∧
    ((maxN : Int) < n0 → c_g_n lg c n0 gnType maxN = List.replicate maxN JSValue.null) := by
  have hi : n - 1 < maxN := by omega
  have hn : n - 1 + 1 = n := by omega
  have hget := c_g_n_getElem? lg c n0 gnType maxN (n - 1) hi
  rw [hn] at hget
  refine ⟨?_, ?_, by simp, by simp, ?_⟩
  · intro hlt
    rw [hget, c_g_point, if_neg (by omega)]
  · intro hge
    rw [hget, c_g_point, if_pos hge]
  · intro hbig
    apply List.ext_getElem?
    intro i
    by_cases hi' : i < maxN
    · rw [c_g_n_getElem? lg c n0 gnType maxN i hi', c_g_point, if_neg (by push_cast; omega)]
      simp [List.getElem?_replicate, hi']
    · have h1' : (c_g_n lg c n0 gnType maxN).length ≤ i := by
        simp [c_g_n, labels_length]; omega
      rw [List.getElem?_eq_none h1']
      simp [List.getElem?_replicate, hi']

/-- C1 at `n0 = 50`, `maxN = 10`, `n = 3`: the point is `null`, and so is the whole series. -/
theorem c_g_n_threshold_witness :
    (c_g_n floorLog2 1 50 "linear" 10)[3 - 1]? = some JSValue.null ∧
    c_g_n floorLog2 1 50 "linear" 10 = List.replicate 10 JSValue.null :=
  have h := c_g_n_threshold floorLog2 1 50 "linear" 10 3 (by decide) (by decide)
  ⟨h.1 (by decide), h.2.2.2.2 (by decide)⟩

/-! ## The reference table of `g` -/

theorem Math_log2_pos (lg : Nat → ℚ) (n : Nat) (hn : 1 ≤ n) :
    Math_log2 lg n = JSNumber.finite (lg n) := by
  rw [Math_log2, if_neg (by omega)]

/-! ### Rounding to binary64 -/

theorem roundHalfEven_intCast (z : Int) : roundHalfEven (z : ℚ) = z := by
  simp [roundHalfEven]

theorem roundMagnitude_of_multiple (s : ℚ) (z : Int) (h : s = z * 2 ^ ulpExponent s) :
    roundMagnitude s = s := by
  have h2 : (2 : ℚ) ^ ulpExponent s ≠ 0 := zpow_ne_zero _ (by norm_num)
  have hz : s / 2 ^ ulpExponent s = z := by
    rw [div_eq_iff h2]
    exact h
  rw [roundMagnitude, hz, roundHalfEven_intCast]
  exact h.symm

theorem roundDouble_of_exact (s : ℚ) (h0 : 0 ≤ s) (h : roundMagnitude s = s)
    (hlt : s < 2 ^ 1024) : roundDouble s = JSNumber.finite s := by
  have habs : |s| = s := abs_of_nonneg h0
  rw [roundDouble, habs, h, if_neg (not_le.mpr hlt), if_neg (not_lt.mpr h0)]

theorem ulpExponent_natCast (k : Nat) : ulpExponent (k : ℚ) = (Nat.log 2 k : Int) - 52 := by
  rw [ulpExponent, Int.log_natCast]
  congr 1
  apply max_eq_left
  have : (0 : Int) ≤ (Nat.log 2 k : Int) := Int.natCast_nonneg _
  omega

theorem roundDouble_natCast (k : Nat) (hk : k < 2 ^ 53) :
    roundDouble (k : ℚ) = JSNumber.finite (k : ℚ) := by
  have hlog : Nat.log 2 k ≤ 52 := by
    rcases Nat.eq_zero_or_pos k with h0 | hpos
    · subst h0
      simp
    · exact Nat.lt_succ_iff.mp (Nat.log_lt_of_lt_pow (Nat.pos_iff_ne_zero.mp hpos) hk)
  apply roundDouble_of_exact
  · exact Nat.cast_nonneg k
  · apply roundMagnitude_of_multiple _ ((k * 2 ^ (52 - Nat.log 2 k) : Nat) : Int)
    rw [ulpExponent_natCast]
    have he : ((Nat.log 2 k : Int) - 52) = -((52 - Nat.log 2 k : Nat) : Int) := by omega
    rw [he, zpow_neg, zpow_natCast]
    have h2 : (2 : ℚ) ^ (52 - Nat.log 2 k) ≠ 0 := pow_ne_zero _ (by norm_num)
    push_cast
    field_simp
  · have h1 : (k : ℚ) < ((2 ^ 53 : Nat) : ℚ) := by exact_mod_cast hk
    have h2 : (((2 : Nat) ^ 53 : Nat) : ℚ) ≤ 2 ^ 1024 := by norm_num
    exact lt_of_lt_of_le h1 h2

theorem ulpExponent_two_pow (n : Nat) : ulpExponent ((2 : ℚ) ^ n) = (n : Int) - 52 := by
  have h : ((2 : ℚ) ^ n) = (((2 : Nat) : ℚ)) ^ (n : Int) := by
    rw [zpow_natCast]
    norm_num
  rw [ulpExponent, h, Int.log_zpow (by norm_num)]
  congr 1
  apply max_eq_left
  omega

theorem roundMagnitude_two_pow (n : Nat) : roundMagnitude ((2 : ℚ) ^ n) = 2 ^ n := by
  apply roundMagnitude_of_multiple _ ((2 ^ 52 : Nat) : Int)
  rw [ulpExponent_two_pow]
  have h52 : (((2 ^ 52 : Nat) : Int) : ℚ) = (2 : ℚ) ^ ((52 : Nat) : Int) := by
    rw [zpow_natCast]
    norm_num
  rw [h52, ← zpow_natCast (2 : ℚ) n, ← zpow_add₀ (by norm_num)]
  congr 1
  push_cast
  ring

theorem roundDouble_two_pow (n : Nat) (hn : n ≤ 1023) :
    roundDouble ((2 : ℚ) ^ n) = JSNumber.finite (2 ^ n) := by
  apply roundDouble_of_exact
  · positivity
  · exact roundMagnitude_two_pow n
  · exact pow_lt_pow_right₀ (by norm_num) (by omega)

theorem roundDouble_two_pow_overflow (n : Nat) (hn : 1024 ≤ n) :
    roundDouble ((2 : ℚ) ^ n) = JSNumber.posInf := by
  have h0 : (0 : ℚ) ≤ 2 ^ n := by positivity
  have hle : (2 : ℚ) ^ 1024 ≤ 2 ^ n := pow_le_pow_right₀ (by norm_num) hn
  rw [roundDouble, abs_of_nonneg h0, roundMagnitude_two_pow, if_pos hle]
  simp [JSNumber.inf, not_lt.mpr h0]

theorem int_log_two_eq (s : ℚ) (k : Int) (h1 : (2 : ℚ) ^ k ≤ s) (h2 : s < (2 : ℚ) ^ (k + 1)) :
    Int.log 2 s = k := by
  have hs : 0 < s := lt_of_lt_of_le (zpow_pos (by norm_num) k) h1
  have hb : (1 : ℕ) < 2 := by norm_num
  have ha : k ≤ Int.log 2 s := (Int.zpow_le_iff_le_log hb hs).mp (by exact_mod_cast h1)
  have hc : Int.log 2 s < k + 1 := (Int.lt_zpow_iff_log_lt hb hs).mp (by exact_mod_cast h2)
  omega

theorem roundDouble_five_log2Five :
    roundDouble (5 * log2FiveDouble) = JSNumber.finite (6535646564322381 / 2 ^ 49) := by
  have hlog : Int.log 2 (5 * log2FiveDouble) = 3 := by
    apply int_log_two_eq <;> norm_num [log2FiveDouble]
  have hulp : ulpExponent (5 * log2FiveDouble) = -49 := by
    rw [ulpExponent, hlog]
    rfl
  have hfloor : ⌊5 * log2FiveDouble / 2 ^ (-49 : Int)⌋ = 6535646564322381 := by
    rw [Int.floor_eq_iff]
    constructor <;> norm_num [log2FiveDouble]
  have hround : roundHalfEven (5 * log2FiveDouble / 2 ^ (-49 : Int)) = 6535646564322381 := by
    rw [roundHalfEven, hfloor, if_pos (by norm_num [log2FiveDouble])]
  have hmag : roundMagnitude (5 * log2FiveDouble) = 6535646564322381 / 2 ^ 49 := by
    rw [roundMagnitude, hulp, hround]
    norm_num
  have h0 : (0 : ℚ) ≤ 5 * log2FiveDouble := by norm_num [log2FiveDouble]
  rw [roundDouble, abs_of_nonneg h0, hmag, if_neg (by norm_num), if_neg (not_lt.mpr h0)]

/-- C3, as stated, fails: `g(exponential, 1024)` is `Infinity`, not `2^1024`; and
`g(nlogn, 5)` is the binary64 value nearest to `5 * Math.log2(5)`, which is not
the exact product. -/
theorem g_table_counterexample :
    g64 floorLog2 "exponential" 1024 = JSNumber.posInf ∧
    g64 floorLog2 "exponential" 1024 ≠ JSNumber.finite (2 ^ 1024) ∧
    g64 (fun _ => log2FiveDouble) "nlogn" 5 = JSNumber.finite (6535646564322381 / 2 ^ 49) ∧
    g64 (fun _ => log2FiveDouble) "nlogn" 5 ≠ JSNumber.finite (5 * log2FiveDouble) := by
  have h1 : g64 floorLog2 "exponential" 1024 = JSNumber.posInf := by
    simp only [g64, Math_pow64]
    simp only [String.reduceEq, if_false, if_true]
    exact roundDouble_two_pow_overflow 1024 (le_refl _)
  have h2 : g64 (fun _ => log2FiveDouble) "nlogn" 5 =
      JSNumber.finite (6535646564322381 / 2 ^ 49) := by
    simp only [g64, String.reduceEq, if_false, if_true]
    rw [Math_log2_pos _ 5 (by decide)]
    simp only [JSNumber.mul64, JSNumber.mul, JSNumber.ofNat]
    have hc : ((5 : Nat) : ℚ) * log2FiveDouble = 5 * log2FiveDouble := by norm_num
    rw [hc]
    exact roundDouble_five_log2Five
  refine ⟨h1, ?_, h2, ?_⟩
  · rw [h1]
    simp
  · rw [h2]
    norm_num [log2FiveDouble]

theorem mul64_natCast (a b : Nat) (h : a * b < 2 ^ 53) :
    JSNumber.mul64 (JSNumber.ofNat a) (JSNumber.ofNat b) = JSNumber.finite ((a * b : Nat) : ℚ) := by
  simp only [JSNumber.mul64, JSNumber.mul, JSNumber.ofNat]
  rw [← Nat.cast_mul]
  exact roundDouble_natCast (a * b) h

/-- C3, amended: for every integer `n ≥ 1`, `g` on binary64 Numbers gives
`linear ↦ n`, `logn ↦ Math.log2(n)`, `nlogn ↦` the binary64 value nearest to
`n * Math.log2(n)`, `quadratic ↦` the binary64 value nearest to `n^2` (which is
`n^2` while `n^2 < 2^53`), `exponential ↦ 2^n` for `n ≤ 1023` and `Infinity` from
`n = 1024` on, and any other selector behaves as `nlogn`; with `Math.log2(8) = 3`,
`g(linear, 4) = 4`, `g(logn, 8) = 3`, `g(nlogn, 8) = 24`, `g(quadratic, 5) = 25`,
`g(exponential, 5) = 32`. -/
theorem g_table (lg : Nat → ℚ) (hlg : lg 8 = 3) (n : Nat) (hn : 1 ≤ n) :
    g64 lg "linear" n = JSNumber.finite n ∧
    g64 lg "logn" n = JSNumber.finite (lg n) ∧
    g64 lg "nlogn" n = roundDouble (n * lg n) ∧
    g64 lg "quadratic" n = roundDouble ((n : ℚ) ^ 2) ∧
    (n * n < 2 ^ 53 → g64 lg "quadratic" n = JSNumber.finite ((n : ℚ) ^ 2)) ∧
    (n ≤ 1023 → g64 lg "exponential" n = JSNumber.finite (2 ^ n)) ∧
    (1024 ≤ n → g64 lg "exponential" n = JSNumber.posInf) ∧
    (∀ sel : String, sel ∉ ["linear", "logn", "nlogn", "quadratic", "exponential"] →
      g64 lg sel n = roundDouble (n * lg n) ∧ g64 lg sel n = g64 lg "nlogn" n) ∧
    g64 lg "linear" 4 = JSNumber.finite 4 ∧
    g64 lg "logn" 8 = JSNumber.finite 3 ∧
    g64 lg "nlogn" 8 = JSNumber.finite 24 ∧
    g64 lg "quadratic" 5 = JSNumber.finite 25 ∧
    g64 lg "exponential" 5 = JSNumber.finite 32 := by
  have hlog := Math_log2_pos lg n hn
  have hlog8 := Math_log2_pos lg 8 (by decide)
  have hnl : g64 lg "nlogn" n = roundDouble (n * lg n) := by
    simp only [g64, String.reduceEq, if_false, if_true]
    rw [hlog]
    rfl
  refine ⟨?_, ?_, hnl, ?_, ?_, ?_, ?_, ?_, ?_, ?_, ?_, ?_, ?_⟩
  · simp [g64, JSNumber.ofNat]
  · simp [g64, hlog]
  · simp only [g64, String.reduceEq, if_false, if_true]
    simp only [JSNumber.mul64, JSNumber.mul, JSNumber.ofNat, sq]
  · intro hsq
    simp only [g64, String.reduceEq, if_false, if_true]
    rw [mul64_natCast n n hsq]
    push_cast
    rw [sq]
  · intro hn'
    simp only [g64, String.reduceEq, if_false, if_true, Math_pow64]
    exact roundDouble_two_pow n hn'
  · intro hm
    simp only [g64, String.reduceEq, if_false, if_true, Math_pow64]
    exact roundDouble_two_pow_overflow n hm
  · intro sel hsel
    simp only [List.mem_cons, List.mem_singleton, List.not_mem_nil, or_false, not_or] at hsel
    obtain ⟨h1, h2, h3, h4, h5⟩ := hsel
    have hd : g64 lg sel n = roundDouble (n * lg n) := by
      simp only [g64, h1, h2, h3, h4, h5, if_false]
      rw [hlog]
      rfl
    exact ⟨hd, hd.trans hnl.symm⟩
  · simp [g64, JSNumber.ofNat]
  · simp [g64, hlog8, hlg]
  · simp only [g64, String.reduceEq, if_false, if_true]
    rw [hlog8, hlg]
    simp only [JSNumber.mul64, JSNumber.mul, JSNumber.ofNat]
    have hc : ((8 : Nat) : ℚ) * 3 = ((24 : Nat) : ℚ) := by norm_num
    rw [hc, roundDouble_natCast 24 (by norm_num)]
    norm_num
  · simp only [g64, String.reduceEq, if_false, if_true]
    rw [mul64_natCast 5 5 (by norm_num)]
    norm_num
  · simp only [g64, String.reduceEq, if_false, if_true, Math_pow64]
    rw [roundDouble_two_pow 5 (by norm_num)]
    norm_num

theorem floorLog2_eight : floorLog2 8 = 3 := by
  simp [floorLog2, Nat.log2]

/-- C3 amended, at a host logarithm exact on powers of two, `n = 8`. -/
theorem g_table_witness :
    g64 floorLog2 "logn" 8 = JSNumber.finite (floorLog2 8) ∧
    g64 floorLog2 "logn" 8 = JSNumber.finite 3 ∧
    g64 floorLog2 "nlogn" 8 = JSNumber.finite 24 ∧
    g64 floorLog2 "exponential" 8 = JSNumber.finite (2 ^ 8) :=
  have h := g_table floorLog2 floorLog2_eight 8 (by decide)
  ⟨h.2.1, h.2.2.2.2.2.2.2.2.2.1, h.2.2.2.2.2.2.2.2.2.2.1, h.2.2.2.2.2.1 (by decide)⟩

/-! ## Dataset labels -/

/-- C7: the first dataset's label is "f(n)"; the second is "c·g(n)" followed by
" (from n ≥ n0)" with `n0` in decimal when `n0 > 1`, and exactly "c·g(n)" when
`n0 ≤ 1`; `n0 = 5` gives "c·g(n) (from n ≥ 5)". -/
theorem dataset_labels (lg : Nat → ℚ) (call : Engine) (p : Params) (σ : HostState) :
    (render lg call p σ).1.datasets.map Dataset.label = ["f(n)", cgLabel p.n0] ∧
    (∀ n0 : Int, 1 < n0 → cgLabel n0 = "c·g(n) (from n ≥ " ++ toString n0 ++ ")") ∧
    (∀ n0 : Int, n0 ≤ 1 → cgLabel n0 = "c·g(n)") ∧
    (∀ k : Nat, toString (k : Int) = Nat.repr k) ∧
    cgLabel 5 = "c·g(n) (from n ≥ 5)" ∧
    cgLabel 1 = "c·g(n)" := by
  refine ⟨?_, ?_, ?_, ?_, by decide, by decide⟩
  · simp only [render]
    rfl
  · intro n0 h
    have e : "c·g(n)" ++ " (from n ≥ " = "c·g(n) (from n ≥ " := by decide
    rw [cgLabel, if_pos h, ← e, String.append_assoc, String.append_assoc, String.append_assoc]
  · intro n0 h
    have h' : ¬ 1 < n0 := by omega
    simp [cgLabel, h']
  · intro k
    rfl

/-! ## The parameter store: range invariant -/

theorem cInput_steps : cInput.steps = 399 := by
  simp [RangeInput.steps, cInput]; norm_num; rfl

theorem n0Input_steps : n0Input.steps = 49 := by
  simp [RangeInput.steps, n0Input]

theorem maxNInput_steps : maxNInput.steps = 19 := by
  simp [RangeInput.steps, maxNInput]; norm_num; rfl

theorem parseInt_natCast (m : Nat) : parseInt (m : ℚ) = (m : Int) := by
  have h : (0 : ℚ) ≤ (m : ℚ) := Nat.cast_nonneg m
  simp [parseInt, h]

theorem n0Input_value (k : Nat) : parseInt (n0Input.value k) = ((1 + Nat.min k 49 : Nat) : Int) := by
  rw [← parseInt_natCast]
  congr 1
  simp only [RangeInput.value, n0Input_steps]
  simp [n0Input]

theorem maxNInput_value (k : Nat) :
    parseInt (maxNInput.value k) = ((10 + Nat.min k 19 * 10 : Nat) : Int) := by
  rw [← parseInt_natCast]
  congr 1
  simp only [RangeInput.value, maxNInput_steps]
  simp [maxNInput]

theorem cInput_value (k : Nat) :
    parseFloat (cInput.value k) = 1 / 2 + (Nat.min k 399 : Nat) * (1 / 2) := by
  simp only [parseFloat, RangeInput.value, cInput_steps]
  simp [cInput]

/-- C8: the range invariant (`c ∈ [0.5, 200]`, `n0` an integer in `[1, 50]`, `maxN`
an integer in `[10, 200]` and a multiple of 10) holds in the initial state
(`c = 1`, `n0 = 1`, `maxN = 100`, `fnExpr = "n"`, `gnType = "nlogn"`) and is kept by
every change handler; each handler changes its own field and no other. -/
theorem params_in_range :
    Params.initial = { c := 1, n0 := 1, maxN := 100, fnExpr := "n", gnType := "nlogn" } ∧
    Params.initial.InRange ∧
    (∀ (p : Params) (e : Event), p.InRange → (handle p e).InRange) ∧
    (∀ (p : Params) (k : Nat), handle p (Event.cChange k) = { p with c := (handle p (Event.cChange k)).c }) ∧
    (∀ (p : Params) (k : Nat), handle p (Event.n0Change k) = { p with n0 := (handle p (Event.n0Change k)).n0 }) ∧
    (∀ (p : Params) (k : Nat),
      handle p (Event.maxNChange k) = { p with maxN := (handle p (Event.maxNChange k)).maxN }) ∧
    (∀ (p : Params) (t : String), handle p (Event.fnExprChange t) = { p with fnExpr := t }) ∧
    (∀ (p : Params) (t : String), handle p (Event.gnTypeChange t) = { p with gnType := t }) := by
  refine ⟨rfl, ?_, ?_, fun _ _ => rfl, fun _ _ => rfl, fun _ _ => rfl, fun _ _ => rfl,
    fun _ _ => rfl⟩
  · simp only [Params.InRange, Params.initial]
    norm_num
  · intro p e hp
    obtain ⟨⟨hc1, hc2⟩, ⟨hn1, hn2⟩, hm1, hm2, hm3⟩ := hp
    cases e with
    | fnExprChange t => exact ⟨⟨hc1, hc2⟩, ⟨hn1, hn2⟩, hm1, hm2, hm3⟩
    | gnTypeChange t => exact ⟨⟨hc1, hc2⟩, ⟨hn1, hn2⟩, hm1, hm2, hm3⟩
    | cChange k =>
      refine ⟨?_, ⟨hn1, hn2⟩, hm1, hm2, hm3⟩
      show 1 / 2 ≤ parseFloat (cInput.value k) ∧ parseFloat (cInput.value k) ≤ 200
      rw [cInput_value]
      have hk : ((Nat.min k 399 : Nat) : ℚ) ≤ 399 := by
        exact_mod_cast Nat.min_le_right k 399
      have hk0 : (0 : ℚ) ≤ ((Nat.min k 399 : Nat) : ℚ) := Nat.cast_nonneg _
      constructor <;> linarith
    | n0Change k =>
      refine ⟨⟨hc1, hc2⟩, ?_, hm1, hm2, hm3⟩
      show 1 ≤ parseInt (n0Input.value k) ∧ parseInt (n0Input.value k) ≤ 50
      rw [n0Input_value]
      have hk : Nat.min k 49 ≤ 49 := Nat.min_le_right k 49
      constructor <;> omega
    | maxNChange k =>
      refine ⟨⟨hc1, hc2⟩, ⟨hn1, hn2⟩, ?_⟩
      show 10 ≤ parseInt (maxNInput.value k) ∧ parseInt (maxNInput.value k) ≤ 200 ∧
        (10 : Int) ∣ parseInt (maxNInput.value k)
      rw [maxNInput_value]
      have hk : Nat.min k 19 ≤ 19 := Nat.min_le_right k 19
      refine ⟨by omega, by omega, ?_⟩
      exact ⟨((1 + Nat.min k 19 : Nat) : Int), by push_cast; ring⟩

/-! ## The exponential reference function and the double range -/

theorem g_exponential (lg : Nat → ℚ) (n : Nat) :
    g lg "exponential" n = JSNumber.finite (2 ^ n) := by
  simp [g, Math_pow]

theorem two_pow_le_of_le_200 (n : Nat) (hn : n ≤ 200) : (2 : ℚ) ^ n ≤ 2 ^ 200 :=
  pow_le_pow_right₀ (by norm_num) hn

theorem two_pow_200_lt_max : (2 : ℚ) ^ 200 * 200 < maxFiniteDouble := by
  unfold maxFiniteDouble
  norm_num

/-- C9, as stated, fails: there is no `n` in `1..200` (whatever the host logarithm)
at which the value `2^n` of `g` for `exponential` exceeds the largest finite double. -/
theorem exponential_overflow_counterexample :
    ¬ ∃ (lg : Nat → ℚ) (n : Nat), 1 ≤ n ∧ n ≤ 200 ∧
      ∃ q : ℚ, g lg "exponential" n = JSNumber.finite q ∧ maxFiniteDouble < q := by
  rintro ⟨lg, n, _, hn, q, hq, hlt⟩
  rw [g_exponential] at hq
  have hq' : (2 : ℚ) ^ n = q := by injection hq
  have h1 := two_pow_le_of_le_200 n hn
  have h2 := two_pow_200_lt_max
  have h3 : (0 : ℚ) < 2 ^ 200 := by positivity
  linarith

/-- C9, amended: with `gnType = exponential` and `n` in `1..200`, `g(n) = 2^n` is at
most `2^200`, which is below the largest finite double `2^1024 - 2^971`; and for
`c` in `[0.5, 200]` the plotted value `c * g(n)` is a finite Number below it too. -/
theorem exponential_within_double_range (lg : Nat → ℚ) (c : ℚ) (n : Nat)
    (hn1 : 1 ≤ n) (hn2 : n ≤ 200) (hc1 : 1 / 2 ≤ c) (hc2 : c ≤ 200) :
    g lg "exponential" n = JSNumber.finite (2 ^ n) ∧
    (2 : ℚ) ^ n ≤ 2 ^ 200 ∧
    (2 : ℚ) ^ 200 < maxFiniteDouble ∧
    c_g_point lg c 1 "exponential" n = JSValue.number (JSNumber.finite (c * 2 ^ n)) ∧
    0 ≤ c * 2 ^ n ∧ c * 2 ^ n < maxFiniteDouble := by
  have h1 := two_pow_le_of_le_200 n hn2
  have h2 := two_pow_200_lt_max
  have h3 : (0 : ℚ) < 2 ^ 200 := by positivity
  have h4 : (0 : ℚ) < 2 ^ n := by positivity
  have h5 : c * 2 ^ n ≤ 200 * 2 ^ 200 := by
    apply mul_le_mul hc2 h1 (le_of_lt h4) (by norm_num)
  refine ⟨g_exponential lg n, h1, by linarith, ?_, ?_, by linarith⟩
  · have hle : (1 : Int) ≤ (n : Int) := by exact_mod_cast hn1
    rw [c_g_point, if_pos hle, g_exponential]
    rfl
  · have hc0 : (0 : ℚ) ≤ c := by linarith
    exact mul_nonneg hc0 (le_of_lt h4)

/-- C9 amended, at `n = 200` and `c = 200`. -/
theorem exponential_within_double_range_witness :
    g floorLog2 "exponential" 200 = JSNumber.finite (2 ^ 200) ∧
    (200 : ℚ) * 2 ^ 200 < maxFiniteDouble :=
  have h := exponential_within_double_range floorLog2 200 200 (by decide) (by decide)
    (by norm_num) (by norm_num)
  ⟨h.1, h.2.2.2.2.2⟩

/-! ## Non-negativity of `g` on the labels -/

/-- C10: for every selector and every integer `n ≥ 1`, `Math.log2` is taken at a
positive argument (its value is the host's `lg n`, taken non-negative for
arguments `≥ 1`), `g(n)` is a finite non-negative Number, and for every `c > 0`
a present point (`n ≥ n0`) of the scaled series is a finite non-negative Number,
so neither NaN nor negative; every label is `≥ 1`. -/
theorem g_nonneg (lg : Nat → ℚ) (hlg : ∀ m : Nat, 1 ≤ m → 0 ≤ lg m) (gnType : String)
    (n : Nat) (hn : 1 ≤ n) :
    Math_log2 lg n = JSNumber.finite (lg n) ∧ 0 ≤ lg n ∧
    (g lg gnType n).IsNonnegFinite ∧
    (∀ (c : ℚ) (n0 : Int), 0 < c → n0 ≤ (n : Int) →
      ∃ q : ℚ, c_g_point lg c n0 gnType n = JSValue.number (JSNumber.finite q) ∧ 0 ≤ q ∧
        JSValue.number (JSNumber.finite q) ≠ JSValue.number JSNumber.nan) ∧
    (∀ (maxN m : Nat), m ∈ labels maxN → 1 ≤ m) := by
  have hlab : ∀ (maxN m : Nat), m ∈ labels maxN → 1 ≤ m := by
    intro maxN m hm
    simp only [labels, List.mem_map, List.mem_range] at hm
    obtain ⟨i, _, rfl⟩ := hm
    omega
  have hlog := Math_log2_pos lg n hn
  have hl := hlg n hn
  have hn0 : (0 : ℚ) ≤ (n : ℚ) := Nat.cast_nonneg n
  have hg : ∃ q : ℚ, g lg gnType n = JSNumber.finite q ∧ 0 ≤ q := by
    unfold g
    split_ifs
    · exact ⟨n, rfl, hn0⟩
    · exact ⟨n * n, rfl, mul_nonneg hn0 hn0⟩
    · exact ⟨lg n, hlog, hl⟩
    · exact ⟨n * lg n, by rw [hlog]; rfl, mul_nonneg hn0 hl⟩
    · exact ⟨2 ^ n, rfl, by positivity⟩
    · exact ⟨n * lg n, by rw [hlog]; rfl, mul_nonneg hn0 hl⟩
  obtain ⟨q, hq, hq0⟩ := hg
  refine ⟨hlog, hl, ?_, ?_, hlab⟩
  · rw [hq]
    exact hq0
  · intro c n0 hc hge
    refine ⟨c * q, ?_, mul_nonneg (le_of_lt hc) hq0, by simp⟩
    rw [c_g_point, if_pos hge, hq]
    rfl

theorem floorLog2_nonneg (m : Nat) : 0 ≤ floorLog2 m := Nat.cast_nonneg _

/-- C10 at `gnType = nlogn`, `n = 8`, `c = 1/2`, `n0 = 3`. -/
theorem g_nonneg_witness :
    (g floorLog2 "nlogn" 8).IsNonnegFinite ∧
    ∃ q : ℚ, c_g_point floorLog2 (1 / 2) 3 "nlogn" 8 = JSValue.number (JSNumber.finite q) ∧
      0 ≤ q ∧ JSValue.number (JSNumber.finite q) ≠ JSValue.number JSNumber.nan :=
  have h := g_nonneg floorLog2 (fun m _ => floorLog2_nonneg m) "nlogn" 8 (by decide)
  ⟨h.2.2.1, h.2.2.2.1 (1 / 2) 3 (by norm_num) (by decide)⟩

/-! ## The f-series: shape -/

theorem mapParseFn_length (call : Engine) (fnExpr : String) (ns : List Nat) (σ : HostState) :
    (mapParseFn call fnExpr ns σ).1.length = ns.length := by
  induction ns generalizing σ with
  | nil => rfl
  | cons n ns ih =>
    simp only [mapParseFn, List.length_cons]
    rw [ih]

theorem mapParseFn_append (call : Engine) (fnExpr : String) (xs ys : List Nat) (σ : HostState) :
    mapParseFn call fnExpr (xs ++ ys) σ =
      ((mapParseFn call fnExpr xs σ).1 ++
          (mapParseFn call fnExpr ys (mapParseFn call fnExpr xs σ).2).1,
        (mapParseFn call fnExpr ys (mapParseFn call fnExpr xs σ).2).2) := by
  induction xs generalizing σ with
  | nil => rfl
  | cons x xs ih =>
    rw [List.cons_append]
    simp only [mapParseFn]
    rw [ih]
    rfl

theorem labels_split (i k : Nat) :
    labels (i + (k + 1)) = labels i ++ (i + 1) :: List.range' (i + 2) k := by
  rw [labels_eq_range', labels_eq_range', Nat.add_comm i (k + 1), ← List.range'_append_1 1 i (k + 1),
    List.range'_succ, Nat.add_comm 1 i]

theorem f_n_getElem? (call : Engine) (fnExpr : String) (maxN i : Nat) (σ : HostState)
    (h : i < maxN) :
    (f_n call fnExpr maxN σ).1[i]? =
      some (parseFn call fnExpr (labelValue (i + 1)) (f_n call fnExpr i σ).2).1 := by
  obtain ⟨k, rfl⟩ : ∃ k, maxN = i + (k + 1) := ⟨maxN - i - 1, by omega⟩
  have hlen : (mapParseFn call fnExpr (labels i) σ).1.length = i := by
    rw [mapParseFn_length, labels_length]
  simp only [f_n]
  rw [labels_split, mapParseFn_append]
  simp only []
  rw [List.getElem?_append_right (by rw [hlen]), hlen, Nat.sub_self]
  simp only [mapParseFn, List.getElem?_cons_zero]

/-! ## Arithmetic expressions are evaluated without touching the host state -/

theorem eval_arith (e : Expr) (h : e.isArith = true) (x : JSNumber) (σ : HostState) :
    eval e { n := JSValue.number x, host := σ } =
      (Except.ok (JSValue.number (arithValue e x)), { n := JSValue.number x, host := σ }) := by
  induction e with
  | num k => simp [eval, arithValue]
  | ident y =>
    simp only [Expr.isArith, decide_eq_true_eq] at h
    subst h
    simp [eval, arithValue]
  | mul a b iha ihb =>
    simp only [Expr.isArith, Bool.and_eq_true] at h
    simp [eval, iha h.1, ihb h.2, arithValue, toNumber]
  | add a b iha ihb =>
    simp only [Expr.isArith, Bool.and_eq_true] at h
    simp [eval, iha h.1, ihb h.2, arithValue, toNumber]
  | lit v => simp [Expr.isArith] at h
  | thisProp y => simp [Expr.isArith] at h
  | not a _ => simp [Expr.isArith] at h
  | or a b _ _ => simp [Expr.isArith] at h
  | assignIdent y a _ => simp [Expr.isArith] at h
  | assignThisProp y a _ => simp [Expr.isArith] at h

theorem parseFn_arith (expr : String) (e : Expr)
    (hp : parseBody ("return " ++ expr) = some (some e)) (ha : e.isArith = true)
    (x : JSNumber) (σ : HostState) :
    parseFn fragmentEngine expr (JSValue.number x) σ = (JSValue.number (arithValue e x), σ) := by
  simp [parseFn, fragmentEngine, hp, eval_arith e ha]

theorem mapParseFn_arith (expr : String) (e : Expr)
    (hp : parseBody ("return " ++ expr) = some (some e)) (ha : e.isArith = true)
    (ns : List Nat) (σ : HostState) :
    mapParseFn fragmentEngine expr ns σ =
      (ns.map (fun n => JSValue.number (arithValue e (JSNumber.ofNat n))), σ) := by
  induction ns with
  | nil => rfl
  | cons n ns ih =>
    simp only [mapParseFn, labelValue, parseFn_arith expr e hp ha, ih, List.map_cons]

theorem parseBody_n : parseBody ("return " ++ "n") = some (some (Expr.ident "n")) := by decide

theorem parseBody_n_times_n :
    parseBody ("return " ++ "n*n") = some (some (Expr.mul (Expr.ident "n") (Expr.ident "n"))) := by
  decide

theorem parseBody_notAVariable :
    parseBody ("return " ++ "notAVariable+1") =
      some (some (Expr.add (Expr.ident "notAVariable") (Expr.num 1))) := by
  decide

/-! ## The render in the host's realm -/

theorem mapThrowing_ok (f : Nat → Except JSError JSValue) (h : Nat → JSValue) (ns : List Nat)
    (hf : ∀ n, f n = Except.ok (h n)) : mapThrowing f ns = Except.ok (ns.map h) := by
  induction ns with
  | nil => rfl
  | cons n ns ih => simp only [mapThrowing, hf n, ih, List.map_cons]

theorem gHost_intact (lg : Nat → ℚ) (σ : HostState) (gnType : String) (n : Nat)
    (hM : σ.intact "Math" = true) : gHost lg σ gnType n = Except.ok (g lg gnType n) := by
  unfold gHost g Math_log2Host Math_powHost
  simp only [hM, if_true]
  split_ifs <;> rfl

theorem c_g_pointHost_intact (lg : Nat → ℚ) (σ : HostState) (c : ℚ) (n0 : Int)
    (gnType : String) (n : Nat) (hM : σ.intact "Math" = true) :
    c_g_pointHost lg σ c n0 gnType n = Except.ok (c_g_point lg c n0 gnType n) := by
  unfold c_g_pointHost c_g_point
  rw [gHost_intact lg σ gnType n hM]
  split_ifs <;> rfl

theorem parseFn_arith_state (expr : String) (e : Expr)
    (hp : parseBody ("return " ++ expr) = some (some e)) (ha : e.isArith = true)
    (n : Nat) (σ : HostState) :
    parseFn fragmentEngine expr (labelValue n) σ =
      ((parseFn fragmentEngine expr (labelValue n) σ).1, σ) := by
  rw [labelValue, parseFn_arith expr e hp ha]

theorem mapParseFnHost_arith (expr : String) (e : Expr)
    (hp : parseBody ("return " ++ expr) = some (some e)) (ha : e.isArith = true)
    (ns : List Nat) (σ : HostState) (hF : σ.intact "Function" = true) :
    mapParseFnHost fragmentEngine expr ns σ =
      (ns.map (fun n => (parseFn fragmentEngine expr (labelValue n) σ).1), σ) := by
  induction ns with
  | nil => rfl
  | cons n ns ih =>
    simp only [mapParseFnHost, parseFnHost, hF, if_true, List.map_cons]
    rw [parseFn_arith_state expr e hp ha n σ]
    simp only [ih]

theorem renderHost_arith (lg : Nat → ℚ) (p : Params) (e : Expr) (σ : HostState)
    (hp : parseBody ("return " ++ p.fnExpr) = some (some e)) (ha : e.isArith = true)
    (hA : σ.intact "Array" = true) (hF : σ.intact "Function" = true)
    (hM : σ.intact "Math" = true) :
    renderHost lg fragmentEngine p σ =
      (Except.ok
        { labels := labels p.maxN.toNat,
          datasets :=
            [{ label := fLabel,
               data := (labels p.maxN.toNat).map
                 (fun n => (parseFn fragmentEngine p.fnExpr (labelValue n) σ).1) },
             { label := cgLabel p.n0, data := c_g_n lg p.c p.n0 p.gnType p.maxN.toNat }] }, σ) := by
  unfold renderHost
  rw [if_pos hA, mapParseFnHost_arith p.fnExpr e hp ha _ σ hF]
  simp only []
  rw [mapThrowing_ok _ (c_g_point lg p.c p.n0 p.gnType) _
    (fun n => c_g_pointHost_intact lg σ p.c p.n0 p.gnType n hM)]
  rfl

theorem parseBody_mathZero :
    parseBody ("return " ++ mathZeroExpr) =
      some (some (Expr.assignIdent "Math" (Expr.num 0))) := by
  decide

/-- The host state in which `Math` has been replaced by the number 0. -/
theorem parseFn_mathZero_empty (n : JSValue) :
    parseFn fragmentEngine mathZeroExpr n HostState.empty =
      (JSValue.number (JSNumber.finite 0),
        { globals := [("Math", JSValue.number (JSNumber.finite 0))] }) := by
  unfold parseFn fragmentEngine
  rw [parseBody_mathZero]
  simp [eval, HostState.empty, JSNumber.ofNat, globalSet, isFixedGlobal, setBinding]

theorem parseFn_mathZero_again (n : JSValue) :
    parseFn fragmentEngine mathZeroExpr n
        { globals := [("Math", JSValue.number (JSNumber.finite 0))] } =
      (JSValue.number (JSNumber.finite 0),
        { globals := [("Math", JSValue.number (JSNumber.finite 0))] }) := by
  unfold parseFn fragmentEngine
  rw [parseBody_mathZero]
  simp [eval, JSNumber.ofNat, globalSet, isFixedGlobal, setBinding]

theorem mapParseFnHost_mathZero_again (ns : List Nat) :
    mapParseFnHost fragmentEngine mathZeroExpr ns
        { globals := [("Math", JSValue.number (JSNumber.finite 0))] } =
      (ns.map (fun _ => JSValue.number (JSNumber.finite 0)),
        { globals := [("Math", JSValue.number (JSNumber.finite 0))] }) := by
  have hF : HostState.intact { globals := [("Math", JSValue.number (JSNumber.finite 0))] }
      "Function" = true := by decide
  induction ns with
  | nil => rfl
  | cons n ns ih =>
    simp only [mapParseFnHost, parseFnHost, hF, if_true, parseFn_mathZero_again, ih, List.map_cons]

theorem mapThrowing_cons_error (f : Nat → Except JSError JSValue) (n : Nat) (ns : List Nat)
    (err : JSError) (h : f n = Except.error err) :
    mapThrowing f (n :: ns) = Except.error err := by
  simp only [mapThrowing, h]

theorem mapParseFnHost_mathZero_empty (n : Nat) (ns : List Nat) :
    mapParseFnHost fragmentEngine mathZeroExpr (n :: ns) HostState.empty =
      ((n :: ns).map (fun _ => JSValue.number (JSNumber.finite 0)),
        { globals := [("Math", JSValue.number (JSNumber.finite 0))] }) := by
  have hF : HostState.empty.intact "Function" = true := by decide
  simp only [mapParseFnHost, parseFnHost, hF, if_true, parseFn_mathZero_empty,
    mapParseFnHost_mathZero_again, List.map_cons]

theorem labels_succ_cons (k : Nat) : labels (k + 1) = 1 :: List.range' 2 k := by
  rw [labels_eq_range', List.range'_succ]

/-- C2, as stated, fails: at the default parameters with `fnExpr = "Math = 0"` (a
parameter set within the ranges), line 53 replaces the global `Math`, and line 54
then throws a TypeError at `Math.log2`: the render ends with no series at all.
Likewise, once a text has replaced `Array`, a render throws on line 32 whatever
`fnExpr` is, and once `Function` is replaced every f-series point is NaN. -/
theorem series_shape_counterexample :
    mathZeroParams =
      { c := 1, n0 := 1, maxN := 100, fnExpr := "Math = 0", gnType := "nlogn" } ∧
    mathZeroParams.InRange ∧
    renderHost floorLog2 fragmentEngine mathZeroParams HostState.empty =
      (Except.error JSError.typeError,
        { globals := [("Math", JSValue.number (JSNumber.finite 0))] }) ∧
    renderHost floorLog2 fragmentEngine sampleParams
        { globals := [("Array", JSValue.number (JSNumber.finite 0))] } =
      (Except.error JSError.typeError,
        { globals := [("Array", JSValue.number (JSNumber.finite 0))] }) ∧
    parseFnHost fragmentEngine "n" (labelValue 10)
        { globals := [("Function", JSValue.number (JSNumber.finite 0))] } =
      (JSValue.number JSNumber.nan,
        { globals := [("Function", JSValue.number (JSNumber.finite 0))] }) := by
  refine ⟨rfl, ?_, ?_, rfl, rfl⟩
  · simp only [Params.InRange, mathZeroParams, Params.initial]
    norm_num
  · have hA : HostState.empty.intact "Array" = true := by decide
    have hF : HostState.empty.intact "Function" = true := by decide
    have hN : mathZeroParams.maxN.toNat = 99 + 1 := rfl
    have hE : mathZeroParams.fnExpr = mathZeroExpr := rfl
    have hM : HostState.intact { globals := [("Math", JSValue.number (JSNumber.finite 0))] }
        "Math" = false := by decide
    have hG : mathZeroParams.gnType = "nlogn" := rfl
    have h0 : mathZeroParams.n0 = 1 := rfl
    unfold renderHost
    rw [if_pos hA, hN, hE, labels_succ_cons, mapParseFnHost_mathZero_empty]
    simp only []
    have hpt : c_g_pointHost floorLog2
        { globals := [("Math", JSValue.number (JSNumber.finite 0))] }
        mathZeroParams.c mathZeroParams.n0 mathZeroParams.gnType 1 =
        Except.error JSError.typeError := by
      simp [c_g_pointHost, gHost, Math_log2Host, hM, hG, h0, Except.map]
    rw [mapThrowing_cons_error _ 1 _ JSError.typeError hpt]

/-- C2, amended: when `fnExpr` is built from integer literals, `n`, `+`, `*` and
parentheses and the host's `Array`, `Function` and `Math` are the standard ones,
a render produces chart data and leaves the host state as it was: the labels are
`[1, 2, ..., maxN]`, the f-series and the scaled series have `maxN` points each,
and the point at position `i` is the one computed for `n = i + 1`; `maxN = 5`,
`fnExpr = "n"`, `gnType = linear`, `c = 1`, `n0 = 1` gives `[1, 2, 3, 4, 5]` for
both series. -/
theorem series_shape (lg : Nat → ℚ) (p : Params) (e : Expr) (σ : HostState)
    (hp : parseBody ("return " ++ p.fnExpr) = some (some e)) (ha : e.isArith = true)
    (hA : σ.intact "Array" = true) (hF : σ.intact "Function" = true)
    (hM : σ.intact "Math" = true) :
    renderHost lg fragmentEngine p σ =
      (Except.ok
        { labels := labels p.maxN.toNat,
          datasets :=
            [{ label := fLabel,
               data := (labels p.maxN.toNat).map
                 (fun n => (parseFn fragmentEngine p.fnExpr (labelValue n) σ).1) },
             { label := cgLabel p.n0, data := c_g_n lg p.c p.n0 p.gnType p.maxN.toNat }] }, σ) ∧
    labels p.maxN.toNat = List.range' 1 p.maxN.toNat ∧
    ((labels p.maxN.toNat).map
      (fun n => (parseFn fragmentEngine p.fnExpr (labelValue n) σ).1)).length = p.maxN.toNat ∧
    (c_g_n lg p.c p.n0 p.gnType p.maxN.toNat).length = p.maxN.toNat ∧
    (∀ i : Nat, i < p.maxN.toNat →
      (labels p.maxN.toNat)[i]? = some (i + 1) ∧
      ((labels p.maxN.toNat).map
          (fun n => (parseFn fragmentEngine p.fnExpr (labelValue n) σ).1))[i]? =
        some (parseFn fragmentEngine p.fnExpr (labelValue (i + 1)) σ).1 ∧
      (c_g_n lg p.c p.n0 p.gnType p.maxN.toNat)[i]? =
        some (c_g_point lg p.c p.n0 p.gnType (i + 1))) ∧
    (0 ≤ p.maxN → (p.maxN.toNat : Int) = p.maxN) ∧
    renderHost lg fragmentEngine sampleParams HostState.empty =
      (Except.ok
        { labels := [1, 2, 3, 4, 5],
          datasets := [{ label := "f(n)", data := [1, 2, 3, 4, 5].map labelValue },
                       { label := "c·g(n)", data := [1, 2, 3, 4, 5].map labelValue }] },
        HostState.empty) := by
  refine ⟨renderHost_arith lg p e σ hp ha hA hF hM, labels_eq_range' _, ?_, ?_, ?_,
    Int.toNat_of_nonneg, ?_⟩
  · rw [List.length_map, labels_length]
  · simp [c_g_n, labels_length]
  · intro i hi
    refine ⟨labels_getElem? _ i hi, ?_, c_g_n_getElem? lg _ _ _ _ i hi⟩
    rw [List.getElem?_map, labels_getElem? _ i hi]
    rfl
  · rw [renderHost_arith lg sampleParams (Expr.ident "n") HostState.empty parseBody_n rfl
      (by decide) (by decide) (by decide)]
    have h5 : labels sampleParams.maxN.toNat = [1, 2, 3, 4, 5] := by decide
    have hf : ∀ n : Nat, (parseFn fragmentEngine sampleParams.fnExpr (labelValue n)
        HostState.empty).1 = labelValue n := by
      intro n
      rw [labelValue, parseFn_arith sampleParams.fnExpr (Expr.ident "n") parseBody_n rfl]
      rfl
    have hc : cgLabel sampleParams.n0 = "c·g(n)" := by decide
    have hl : fLabel = "f(n)" := rfl
    have hcg : c_g_n lg sampleParams.c sampleParams.n0 sampleParams.gnType
        sampleParams.maxN.toNat = [1, 2, 3, 4, 5].map labelValue := by
      show c_g_n lg 1 1 "linear" 5 = [1, 2, 3, 4, 5].map labelValue
      have h5' : labels 5 = [1, 2, 3, 4, 5] := by decide
      simp [c_g_n, h5', c_g_point, g, JSNumber.mul, JSNumber.ofNat, labelValue]
    rw [h5, hc, hl, hcg]
    simp only [hf, List.map_cons, List.map_nil]

/-- C2 amended, at `c = 1`, `n0 = 1`, `maxN = 5`, `fnExpr = "n"`, `gnType = linear` in a
host state with no user-made global. -/
theorem series_shape_witness :
    renderHost floorLog2 fragmentEngine sampleParams HostState.empty =
      (Except.ok
        { labels := [1, 2, 3, 4, 5],
          datasets := [{ label := "f(n)", data := [1, 2, 3, 4, 5].map labelValue },
                       { label := "c·g(n)", data := [1, 2, 3, 4, 5].map labelValue }] },
        HostState.empty) ∧
    (labels sampleParams.maxN.toNat).length = 5 :=
  have h := series_shape floorLog2 sampleParams (Expr.ident "n") HostState.empty parseBody_n rfl
    (by decide) (by decide) (by decide)
  ⟨h.2.2.2.2.2.2, by rw [h.2.1]; rfl⟩

/-! ## `parseFn`: failures become NaN -/

/-- C4: `parseFn` returns a value in every case and never hands an error to its
caller: when the host throws on building or evaluating `return <expr>`, the
result is NaN, and otherwise it is the value returned; `parseFn("n", 10) = 10`,
`parseFn("n*n", 10) = 100`, and `parseFn("notAVariable+1", n) = NaN` for every `n`
(in a host with no global named `notAVariable`). -/
theorem parseFn_catches (call : Engine) (expr : String) (n : JSValue) (σ : HostState) :
    (∀ (err : JSError) (σ1 : HostState), call ("return " ++ expr) n σ = (Except.error err, σ1) →
      parseFn call expr n σ = (JSValue.number JSNumber.nan, σ1)) ∧
    (∀ (v : JSValue) (σ1 : HostState), call ("return " ++ expr) n σ = (Except.ok v, σ1) →
      parseFn call expr n σ = (v, σ1)) ∧
    parseFn fragmentEngine "n" (labelValue 10) σ = (JSValue.number (JSNumber.finite 10), σ) ∧
    parseFn fragmentEngine "n*n" (labelValue 10) σ = (JSValue.number (JSNumber.finite 100), σ) ∧
    (∀ (m : Nat) (τ : HostState), τ.globals.lookup "notAVariable" = none →
      (fragmentEngine ("return " ++ "notAVariable+1") (labelValue m) τ).1 =
          Except.error JSError.referenceError ∧
        parseFn fragmentEngine "notAVariable+1" (labelValue m) τ =
          (JSValue.number JSNumber.nan, τ)) := by
  refine ⟨?_, ?_, ?_, ?_, ?_⟩
  · intro err σ1 h
    simp [parseFn, h]
  · intro v σ1 h
    simp [parseFn, h]
  · rw [labelValue, parseFn_arith "n" (Expr.ident "n") parseBody_n rfl]
    simp [arithValue, JSNumber.ofNat]
  · rw [labelValue, parseFn_arith "n*n" _ parseBody_n_times_n rfl]
    simp [arithValue, JSNumber.ofNat, JSNumber.mul]
    norm_num
  · intro m τ hτ
    have hg : globalGet τ "notAVariable" = none := by
      simp [globalGet, hτ]
    have hn : ¬ ("notAVariable" = "n") := by decide
    unfold parseFn fragmentEngine
    rw [parseBody_notAVariable]
    simp [eval, hg, hn]

/-! ## `parseFn`: kind of the returned value -/

/-- C5, as stated, fails: `parseFn("null", 1)` is `null` and `parseFn("", 1)` is
`undefined`, neither of which is a Number. -/
theorem parseFn_kind_counterexample :
    parseFn fragmentEngine "null" (labelValue 1) HostState.empty =
      (JSValue.null, HostState.empty) ∧
    parseFn fragmentEngine "" (labelValue 1) HostState.empty =
      (JSValue.undefined, HostState.empty) ∧
    ¬ (parseFn fragmentEngine "null" (labelValue 1) HostState.empty).1.IsNumber ∧
    ¬ (parseFn fragmentEngine "" (labelValue 1) HostState.empty).1.IsNumber := by
  decide

/-- C5, amended: `parseFn(expr, n)` is the value the host returns for
`return <expr>`, or NaN when the host throws; it is a Number whenever the host
returns a Number, and in particular for every `expr` built from integer
literals, `n`, `+`, `*` and parentheses. -/
theorem parseFn_kind (call : Engine) (expr : String) (n : JSValue) (σ : HostState) :
    ((∃ (v : JSValue) (σ1 : HostState),
        call ("return " ++ expr) n σ = (Except.ok v, σ1) ∧ parseFn call expr n σ = (v, σ1)) ∨
      (parseFn call expr n σ).1 = JSValue.number JSNumber.nan) ∧
    (∀ (v : JSValue) (σ1 : HostState), call ("return " ++ expr) n σ = (Except.ok v, σ1) →
      v.IsNumber → (parseFn call expr n σ).1.IsNumber) ∧
    (∀ (e : Expr) (x : JSNumber), parseBody ("return " ++ expr) = some (some e) →
      e.isArith = true → (parseFn fragmentEngine expr (JSValue.number x) σ).1.IsNumber) := by
  refine ⟨?_, ?_, ?_⟩
  · rcases h : call ("return " ++ expr) n σ with ⟨r, σ1⟩
    cases r with
    | ok v => exact Or.inl ⟨v, σ1, rfl, by simp [parseFn, h]⟩
    | error err => exact Or.inr (by simp [parseFn, h])
  · intro v σ1 h hv
    simpa [parseFn, h] using hv
  · intro e x hp ha
    rw [parseFn_arith expr e hp ha]
    trivial

/-! ## Re-deriving the series -/

theorem parseBody_counter :
    parseBody ("return " ++ counterExpr) =
      some (some (Expr.assignThisProp "k"
        (Expr.add (Expr.or (Expr.thisProp "k") (Expr.num 0)) (Expr.num 1)))) := by
  decide

theorem counter_first (n : JSValue) :
    parseFn fragmentEngine counterExpr n HostState.empty =
      (JSValue.number (JSNumber.finite 1),
        { globals := [("k", JSValue.number (JSNumber.finite 1))] }) := by
  unfold parseFn fragmentEngine
  rw [parseBody_counter]
  simp [eval, globalGet, HostState.empty, toBoolean, toNumber, JSNumber.add, JSNumber.ofNat,
    globalSet, isFixedGlobal, setBinding]

theorem counter_next (n : JSValue) (m : ℚ) :
    parseFn fragmentEngine counterExpr n { globals := [("k", JSValue.number (JSNumber.finite m))] } =
      (JSValue.number (JSNumber.finite (m + 1)),
        { globals := [("k", JSValue.number (JSNumber.finite (m + 1)))] }) := by
  unfold parseFn fragmentEngine
  rw [parseBody_counter]
  by_cases hm : m = 0
  · simp [eval, globalGet, toBoolean, toNumber, JSNumber.add, JSNumber.ofNat,
      globalSet, isFixedGlobal, setBinding, hm]
  · simp [eval, globalGet, toBoolean, toNumber, JSNumber.add, JSNumber.ofNat,
      globalSet, isFixedGlobal, setBinding, hm]

theorem labels_ten : labels 10 = [1, 2, 3, 4, 5, 6, 7, 8, 9, 10] := by decide

theorem counter_first_series :
    f_n fragmentEngine counterExpr 10 HostState.empty =
      ([1, 2, 3, 4, 5, 6, 7, 8, 9, 10].map labelValue,
        { globals := [("k", JSValue.number (JSNumber.finite 10))] }) := by
  simp only [f_n, labels_ten, mapParseFn, counter_first, counter_next]
  norm_num [labelValue, JSNumber.ofNat]

theorem counter_second_series :
    f_n fragmentEngine counterExpr 10 { globals := [("k", JSValue.number (JSNumber.finite 10))] } =
      ([11, 12, 13, 14, 15, 16, 17, 18, 19, 20].map labelValue,
        { globals := [("k", JSValue.number (JSNumber.finite 20))] }) := by
  simp only [f_n, labels_ten, mapParseFn, counter_next]
  norm_num [labelValue, JSNumber.ofNat]

theorem counterParams_maxN : counterParams.maxN.toNat = 10 := rfl

theorem counterParams_fnExpr : counterParams.fnExpr = counterExpr := rfl

theorem renderHost_eq_render (lg : Nat → ℚ) (call : Engine) (p : Params) (σ : HostState)
    (hA : σ.intact "Array" = true)
    (hf : mapParseFnHost call p.fnExpr (labels p.maxN.toNat) σ =
      mapParseFn call p.fnExpr (labels p.maxN.toNat) σ)
    (hM : (f_n call p.fnExpr p.maxN.toNat σ).2.intact "Math" = true) :
    renderHost lg call p σ = (Except.ok (render lg call p σ).1, (render lg call p σ).2) := by
  unfold renderHost render
  rw [if_pos hA, hf]
  simp only [f_n] at hM ⊢
  rw [mapThrowing_ok _ (c_g_point lg p.c p.n0 p.gnType) _
    (fun n => c_g_pointHost_intact lg _ p.c p.n0 p.gnType n hM)]
  rfl

theorem mapParseFnHost_counter (ns : List Nat) (m : ℚ) :
    mapParseFnHost fragmentEngine counterExpr ns
        { globals := [("k", JSValue.number (JSNumber.finite m))] } =
      mapParseFn fragmentEngine counterExpr ns
        { globals := [("k", JSValue.number (JSNumber.finite m))] } := by
  induction ns generalizing m with
  | nil => rfl
  | cons n ns ih =>
    have hF : HostState.intact { globals := [("k", JSValue.number (JSNumber.finite m))] }
        "Function" = true := rfl
    simp only [mapParseFnHost, mapParseFn, parseFnHost, hF, if_true, counter_next, ih]

theorem mapParseFnHost_counter_empty (ns : List Nat) :
    mapParseFnHost fragmentEngine counterExpr ns HostState.empty =
      mapParseFn fragmentEngine counterExpr ns HostState.empty := by
  cases ns with
  | nil => rfl
  | cons n ns =>
    have hF : HostState.empty.intact "Function" = true := rfl
    simp only [mapParseFnHost, mapParseFn, parseFnHost, hF, if_true, counter_first,
      mapParseFnHost_counter]

theorem renderHost_counter_first :
    renderHost floorLog2 fragmentEngine counterParams HostState.empty =
      (Except.ok (render floorLog2 fragmentEngine counterParams HostState.empty).1,
        { globals := [("k", JSValue.number (JSNumber.finite 10))] }) := by
  have hs : (f_n fragmentEngine counterParams.fnExpr counterParams.maxN.toNat
      HostState.empty).2 = { globals := [("k", JSValue.number (JSNumber.finite 10))] } := by
    rw [counterParams_fnExpr, counterParams_maxN, counter_first_series]
  rw [renderHost_eq_render floorLog2 fragmentEngine counterParams HostState.empty rfl
    (mapParseFnHost_counter_empty _) (by rw [hs]; rfl)]
  simp only [render]
  rw [hs]

theorem renderHost_counter_second :
    renderHost floorLog2 fragmentEngine counterParams
        { globals := [("k", JSValue.number (JSNumber.finite 10))] } =
      (Except.ok (render floorLog2 fragmentEngine counterParams
          { globals := [("k", JSValue.number (JSNumber.finite 10))] }).1,
        { globals := [("k", JSValue.number (JSNumber.finite 20))] }) := by
  have hs : (f_n fragmentEngine counterParams.fnExpr counterParams.maxN.toNat
      { globals := [("k", JSValue.number (JSNumber.finite 10))] }).2 =
      { globals := [("k", JSValue.number (JSNumber.finite 20))] } := by
    rw [counterParams_fnExpr, counterParams_maxN, counter_second_series]
  rw [renderHost_eq_render floorLog2 fragmentEngine counterParams
    { globals := [("k", JSValue.number (JSNumber.finite 10))] } rfl
    (mapParseFnHost_counter _ _) (by rw [hs]; rfl)]
  simp only [render]
  rw [hs]

/-- C6, as stated, fails: with `fnExpr = "this.k = (this.k || 0) + 1"` and
`maxN = 10`, the first derivation of the f-series gives `1..10` and the second,
from the same parameters, gives `11..20`; the two renders differ, also as
renders in the host's realm, and one call of `parseFn` changes the host state. -/
theorem rederive_counterexample :
    (f_n fragmentEngine counterExpr 10 HostState.empty).1 =
      [1, 2, 3, 4, 5, 6, 7, 8, 9, 10].map labelValue ∧
    (f_n fragmentEngine counterExpr 10 (f_n fragmentEngine counterExpr 10 HostState.empty).2).1 =
      [11, 12, 13, 14, 15, 16, 17, 18, 19, 20].map labelValue ∧
    (render floorLog2 fragmentEngine counterParams
        (render floorLog2 fragmentEngine counterParams HostState.empty).2).1 ≠
      (render floorLog2 fragmentEngine counterParams HostState.empty).1 ∧
    (parseFn fragmentEngine counterExpr (labelValue 1) HostState.empty).2 ≠ HostState.empty ∧
    (renderHost floorLog2 fragmentEngine counterParams
        (renderHost floorLog2 fragmentEngine counterParams HostState.empty).2).1 ≠
      (renderHost floorLog2 fragmentEngine counterParams HostState.empty).1 := by
  have hne : (render floorLog2 fragmentEngine counterParams
        (render floorLog2 fragmentEngine counterParams HostState.empty).2).1 ≠
      (render floorLog2 fragmentEngine counterParams HostState.empty).1 := by
    intro h
    have h0 := congrArg (fun d => (d.datasets.map Dataset.data)[0]?) h
    simp only [render, counterParams_maxN, counterParams_fnExpr, counter_first_series,
      counter_second_series, List.map_cons, List.getElem?_cons_zero, Option.some.injEq,
      List.cons.injEq, labelValue, JSNumber.ofNat, JSValue.number.injEq,
      JSNumber.finite.injEq] at h0
    norm_num at h0
  have hst : (render floorLog2 fragmentEngine counterParams HostState.empty).2 =
      { globals := [("k", JSValue.number (JSNumber.finite 10))] } := by
    simp only [render, counterParams_maxN, counterParams_fnExpr, counter_first_series]
  refine ⟨?_, ?_, hne, ?_, ?_⟩
  · rw [counter_first_series]
  · rw [counter_first_series]
    simp only []
    rw [counter_second_series]
  · rw [counter_first]
    simp [HostState.empty]
  · rw [renderHost_counter_first]
    simp only []
    rw [renderHost_counter_second]
    intro h
    rw [hst] at hne
    exact hne (Except.ok.inj h)

/-- C6, amended: when `fnExpr` is built from integer literals, `n`, `+`, `*` and
parentheses and the host's `Array`, `Function` and `Math` are the standard ones,
`parseFn` leaves the host state as it was and its value does not depend on that
state, a render produces chart data and leaves the state unchanged, the data are
the same from any such state, and rendering again gives identical series. -/
theorem rederive_arith (lg : Nat → ℚ) (p : Params) (e : Expr)
    (hp : parseBody ("return " ++ p.fnExpr) = some (some e)) (ha : e.isArith = true)
    (σ τ : HostState)
    (hA : σ.intact "Array" = true) (hF : σ.intact "Function" = true)
    (hM : σ.intact "Math" = true)
    (hA' : τ.intact "Array" = true) (hF' : τ.intact "Function" = true)
    (hM' : τ.intact "Math" = true) :
    (∀ x : JSNumber,
      (parseFn fragmentEngine p.fnExpr (JSValue.number x) σ).2 = σ ∧
      (parseFn fragmentEngine p.fnExpr (JSValue.number x) σ).1 =
        (parseFn fragmentEngine p.fnExpr (JSValue.number x) τ).1) ∧
    (∃ d : ChartData, renderHost lg fragmentEngine p σ = (Except.ok d, σ) ∧
      renderHost lg fragmentEngine p τ = (Except.ok d, τ)) ∧
    renderHost lg fragmentEngine p (renderHost lg fragmentEngine p σ).2 =
      renderHost lg fragmentEngine p σ := by
  have hv : ∀ (n : Nat) (ρ : HostState),
      (parseFn fragmentEngine p.fnExpr (labelValue n) ρ).1 =
        JSValue.number (arithValue e (JSNumber.ofNat n)) := by
    intro n ρ
    rw [labelValue, parseFn_arith p.fnExpr e hp ha]
  have hσ := renderHost_arith lg p e σ hp ha hA hF hM
  have hτ := renderHost_arith lg p e τ hp ha hA' hF' hM'
  simp only [hv] at hσ hτ
  refine ⟨?_, ⟨_, hσ, hτ⟩, ?_⟩
  · intro x
    rw [parseFn_arith p.fnExpr e hp ha x σ, parseFn_arith p.fnExpr e hp ha x τ]
    exact ⟨rfl, rfl⟩
  · rw [hσ]
    exact hσ

/-- C6 amended, at the default parameters (`fnExpr = "n"`) in a host state with no
user-made global. -/
theorem rederive_arith_witness :
    (∃ d : ChartData,
      renderHost floorLog2 fragmentEngine Params.initial HostState.empty =
        (Except.ok d, HostState.empty)) ∧
    renderHost floorLog2 fragmentEngine Params.initial
        (renderHost floorLog2 fragmentEngine Params.initial HostState.empty).2 =
      renderHost floorLog2 fragmentEngine Params.initial HostState.empty :=
  have h := rederive_arith floorLog2 Params.initial (Expr.ident "n") parseBody_n rfl
    HostState.empty HostState.empty (by decide) (by decide) (by decide) (by decide) (by decide)
    (by decide)
  ⟨h.2.1.elim (fun d hd => ⟨d, hd.1⟩), h.2.2⟩

end TimeComplexityVisualizer
